import Mathlib

/-!
Verification development for the probe-graph construction engine of
`cdm/chg_utils.py` (charge-density-models).

The Python source is shallowly embedded over exact rational arithmetic:

* positions and cell vectors are `Vec3` (triples of `ℚ`);
* periodic offsets are integer triples (`Off3`);
* the two neighbor-finding strategies (`RadiusGraphPBCWrapper` and
  `AseNeighborListWrapper`) become pure functions producing lists of edges;
* `ProbeGraphAdder.__call__` becomes an `Except`-valued function, with the
  distinct Python failure modes (`NotImplementedError`, `AssertionError`,
  `UnboundLocalError`, `ValueError`) reflected as constructors of `PyError`;
* `np.random.randint` is modelled as an input stream `rand : ℕ → ℕ`.

Floating-point rounding is not modelled: all comparisons are exact.
-/

namespace CDM

/-- Integer periodic offset (number of unit-cell translations per axis). -/
abbrev Off3 := ℤ × ℤ × ℤ

/-- A real-space 3-vector with rational coordinates. -/
structure Vec3 where
  x : ℚ
  y : ℚ
  z : ℚ
deriving DecidableEq

/-- Componentwise sum of two vectors. -/
def vadd (u v : Vec3) : Vec3 := ⟨u.x + v.x, u.y + v.y, u.z + v.z⟩

/-- Componentwise difference of two vectors. -/
def vsub (u v : Vec3) : Vec3 := ⟨u.x - v.x, u.y - v.y, u.z - v.z⟩

/-- Scalar multiple of a vector. -/
def smulQ (q : ℚ) (v : Vec3) : Vec3 := ⟨q * v.x, q * v.y, q * v.z⟩

/-- Dot product. -/
def dotV (u v : Vec3) : ℚ := u.x * v.x + u.y * v.y + u.z * v.z

/-- Cross product (used for the reciprocal-lattice spacings). -/
def crossV (u v : Vec3) : Vec3 :=
  ⟨u.y * v.z - u.z * v.y, u.z * v.x - u.x * v.z, u.x * v.y - u.y * v.x⟩

/-- Squared Euclidean norm. -/
def normSq (v : Vec3) : ℚ := v.x * v.x + v.y * v.y + v.z * v.z

/-- A 3x3 periodic cell, stored as its three row (lattice) vectors,
matching the `atoms.get_cell()` row convention of the source. -/
structure Cell where
  a1 : Vec3
  a2 : Vec3
  a3 : Vec3
deriving DecidableEq

/-- Negation of an integer offset triple. -/
def negO (t : Off3) : Off3 := (-t.1, -t.2.1, -t.2.2)

/-- The real-space displacement of an integer cell offset `t`,
`t.1 * a1 + t.2 * a2 + t.3 * a3` (the source's `cellᵀ · t`, i.e. `t · cell`
with the cell rows as lattice vectors). -/
def cellShift (c : Cell) (t : Off3) : Vec3 :=
  vadd (vadd (smulQ (t.1 : ℚ) c.a1) (smulQ (t.2.1 : ℚ) c.a2)) (smulQ (t.2.2 : ℚ) c.a3)

/-- One entry of the combined atom+probe structure: an atomic number
(`0` is the probe sentinel) and a position. -/
structure Site where
  species : ℕ
  pos : Vec3
deriving DecidableEq

/-- Site lookup with an out-of-range default (indices used by the source are
always in range). -/
def siteAt (sites : List Site) (n : ℕ) : Site :=
  (sites.get? n).getD ⟨0, ⟨0, 0, 0⟩⟩

/-- Atomic number of the `n`-th site. -/
def speciesAt (sites : List Site) (n : ℕ) : ℕ := (siteAt sites n).species

/-- Position of the `n`-th site. -/
def posAt (sites : List Site) (n : ℕ) : Vec3 := (siteAt sites n).pos

/-- Squared distance between site `i` and the periodic image of site `j`
displaced by cell offset `o`: `‖pos i - (pos j + o·cell)‖²`.  This is the
quantity the source computes as `atom_distance_sqr` (and what the ASE
neighbor list compares against the cutoff). -/
def pairDistSq (sites : List Site) (c : Cell) (i j : ℕ) (o : Off3) : ℚ :=
  normSq (vsub (posAt sites i) (vadd (posAt sites j) (cellShift c o)))

/-- One edge of an `EdgeSet`: source index, target index (both into the
combined atom+probe ordering) and the stored periodic offset. -/
structure Edge where
  src : ℕ
  tgt : ℕ
  off : Off3
deriving DecidableEq

/-- Real squared distance of an edge after applying its stored offset
through the cell matrix under the record's (OCP) coordinate convention:
`‖pos src - pos tgt + off·cell‖²`.  For an offset stored as `-t` this equals
`‖pos src - (pos tgt + t·cell)‖²`, the distance actually tested. -/
def edgeDistSq (sites : List Site) (c : Cell) (e : Edge) : ℚ :=
  normSq (vadd (vsub (posAt sites e.src) (posAt sites e.tgt)) (cellShift c e.off))

/-- The Python failure modes that the embedded code can raise. -/
inductive PyError where
  | notImplementedError
  | assertionError
  | unboundLocalError
  | valueError
deriving DecidableEq

/-- Least natural number `n` with `y ≤ n²`; this is `⌈√y⌉` for `y ≥ 0`,
used to embed `torch.ceil(radius * inv_min_dist)` exactly (for `radius ≥ 0`,
`⌈radius·√x⌉` is the least `n` with `radius²·x ≤ n²`). -/
def ceilSqrt (y : ℚ) : ℕ :=
  ((List.range (y.num.toNat / y.den + 2)).find? fun n : ℕ => decide (y ≤ (n : ℚ) * (n : ℚ))).getD
    (y.num.toNat / y.den + 1)

/-- Number of unit-cell replications required along one axis:
`ceil(radius * ‖cross‖ / |vol|)`, computed on squares to stay rational. -/
def repCount (radius : ℚ) (crossSq : ℚ) (vol : ℚ) : ℕ :=
  ceilSqrt (radius * radius * crossSq / (vol * vol))

/-- The list `[-n, ..., n]` of integer translations (`torch.arange(-rep, rep+1)`). -/
def rangeSym (n : ℕ) : List ℤ :=
  (List.range (2 * n + 1)).map fun k => (k : ℤ) - (n : ℤ)

/-- Cartesian product of per-axis translation ranges, first axis slowest
(`torch.cartesian_prod`). -/
def unitCells (n1 n2 n3 : ℕ) : List Off3 :=
  (rangeSym n1).flatMap fun t1 =>
    (rangeSym n2).flatMap fun t2 =>
      (rangeSym n3).map fun t3 => (t1, t2, t3)

/-- All integer cell translations enumerated for cutoff `radius`, cell `c`
and per-axis periodicity flags: non-periodic axes use zero replications,
periodic axes use the reciprocal-lattice-spacing bound of the source. -/
def cellsRange (radius : ℚ) (c : Cell) (pbc : Bool × Bool × Bool) : List Off3 :=
  unitCells
    (if pbc.1 then repCount radius (normSq (crossV c.a2 c.a3)) (dotV c.a1 (crossV c.a2 c.a3)) else 0)
    (if pbc.2.1 then repCount radius (normSq (crossV c.a3 c.a1)) (dotV c.a1 (crossV c.a2 c.a3)) else 0)
    (if pbc.2.2 then repCount radius (normSq (crossV c.a1 c.a2)) (dotV c.a1 (crossV c.a2 c.a3)) else 0)

/-- Indices of the non-probe (real atom) entries, in increasing order
(`indices[~is_probe]`). -/
def atomIndices (sites : List Site) : List ℕ :=
  (List.range sites.length).filter fun i => speciesAt sites i != 0

/-- Indices of the probe entries, in increasing order (`indices[is_probe]`). -/
def probeIndices (sites : List Site) : List ℕ :=
  (List.range sites.length).filter fun i => speciesAt sites i == 0

/-- The default `pbc` argument of `RadiusGraphPBCWrapper.__init__`
(`[True, True, False]` in the source), which the calling code never overrides. -/
def rgpbcDefaultPbc : Bool × Bool × Bool := (true, true, false)

/-- State of `RadiusGraphPBCWrapper`: the construction-time cutoff and the
edge list (edge indices plus offsets) computed in `__init__`. -/
structure RGPBCWrapper where
  cutoff : ℚ
  edges : List Edge
deriving DecidableEq

/-- Embedding of `RadiusGraphPBCWrapper.__init__`: enumerate every
(atom, probe) pair (atom-major, probe-minor), then every cell translation
(pair-major, cell-minor), keep squared distances in `(1e-4, radius²]`, and
store the offset negated (`self.offsets = -unit_cell`). -/
def rgpbc_init (radius : ℚ) (sites : List Site) (c : Cell) (pbc : Bool × Bool × Bool) :
    RGPBCWrapper :=
  ⟨radius,
    ((atomIndices sites).flatMap fun a => (probeIndices sites).map fun p => (a, p)).flatMap fun ap =>
      (cellsRange radius c pbc).filterMap fun t =>
        if 1 / 10000 < pairDistSq sites c ap.1 ap.2 t ∧
            pairDistSq sites c ap.1 ap.2 t ≤ radius * radius
        then some ⟨ap.1, ap.2, negO t⟩ else none⟩

/-- Embedding of `RadiusGraphPBCWrapper.get_all_neighbors`: asserts the cutoff
matches the construction-time cutoff, then returns the precomputed edges
(the `include_atomic_edges` argument is accepted but unused, as in the source). -/
def rgpbc_get_all_neighbors (w : RGPBCWrapper) (cutoff : ℚ) (include_atomic_edges : Bool) :
    Except PyError (List Edge) :=
  if cutoff = w.cutoff then .ok w.edges else .error .assertionError

/-- Modelled from the spec: `ase.neighborlist.NewPrimitiveNeighborList` is an
external library (outside `src/`).  Per the spec it is a classic bucketed
neighbor list, periodic, bidirectional, zero skin, no self-interaction:
`get_neighbors(i)` returns every pair `(j, offset)` with
`‖pos i - (pos j + offset·cell)‖ ≤ cutoff`, excluding only the self pair
`(i, 0)`.  Offsets are enumerated over the sufficient replication range
derived from the cell's reciprocal-lattice spacings. -/
def ase_lib_get_neighbors (cutoff : ℚ) (sites : List Site) (c : Cell)
    (pbc : Bool × Bool × Bool) (i : ℕ) : List (ℕ × Off3) :=
  (List.range sites.length).flatMap fun j =>
    (cellsRange cutoff c pbc).filterMap fun o =>
      if ¬(j = i ∧ o = ((0 : ℤ), (0 : ℤ), (0 : ℤ))) ∧
          pairDistSq sites c i j o ≤ cutoff * cutoff
      then some (j, o) else none

/-- State of `AseNeighborListWrapper`: construction-time cutoff, the combined
structure, its cell and periodicity, and the number of non-probe atoms. -/
structure AseWrapper where
  cutoff : ℚ
  sites : List Site
  cell : Cell
  pbc : Bool × Bool × Bool
  num_atoms : ℕ

/-- Embedding of `AseNeighborListWrapper.__init__`. -/
def ase_init (cutoff : ℚ) (sites : List Site) (c : Cell) (pbc : Bool × Bool × Bool) :
    AseWrapper :=
  ⟨cutoff, sites, c, pbc, (sites.filter fun s => s.species != 0).length⟩

/-- Embedding of `AseNeighborListWrapper.get_neighbors`: asserts the cutoff,
queries the library, and negates the library offsets ("Sign change required
due to differing conventions in ASE and OCP"). -/
def ase_get_neighbors (w : AseWrapper) (i : ℕ) (cutoff : ℚ) :
    Except PyError (List (ℕ × Off3)) :=
  if cutoff = w.cutoff
  then .ok ((ase_lib_get_neighbors w.cutoff w.sites w.cell w.pbc i).map fun jo =>
    (jo.1, negO jo.2))
  else .error .assertionError

/-- Embedding of `AseNeighborListWrapper.get_all_neighbors`: for each real atom
`i` it queries `self.neighborlist.get_neighbors(i)` — the raw library, not the
wrapper's `get_neighbors` — so the cutoff argument is never checked and the
library offsets are kept with their original sign.  Unless
`include_atomic_edges` is set, only partners with probe species are kept. -/
def ase_get_all_neighbors (w : AseWrapper) (cutoffArg : ℚ) (include_atomic_edges : Bool) :
    List Edge :=
  (List.range w.num_atoms).flatMap fun i =>
    ((ase_lib_get_neighbors w.cutoff w.sites w.cell w.pbc i).filter fun jo =>
      include_atomic_edges || (speciesAt w.sites jo.1 == 0)).map fun jo =>
        ⟨i, jo.1, jo.2⟩

/-- A charge-density grid: a shape `(nx, ny, nz)` and the scalar value at each
index triple (indices beyond the shape are never consulted by the source). -/
structure Grid where
  shape : ℕ × ℕ × ℕ
  values : ℕ → ℕ → ℕ → ℚ

/-- Total number of grid points `nx * ny * nz`. -/
def gridTotal (shape : ℕ × ℕ × ℕ) : ℕ := shape.1 * shape.2.1 * shape.2.2

/-- Length of the numpy slice `arange(n)[::stride]`. -/
def strideLen (n stride : ℕ) : ℕ := (n + stride - 1) / stride

/-- Embedding of `density[::stride, ::stride, ::stride]` (`stride = 1` leaves
the grid untouched, as in the source's `if stride != 1` guard). -/
def strideGrid (stride : ℕ) (g : Grid) : Grid :=
  if stride = 1 then g
  else ⟨⟨strideLen g.shape.1 stride, strideLen g.shape.2.1 stride, strideLen g.shape.2.2 stride⟩,
    fun i j k => g.values (stride * i) (stride * j) (stride * k)⟩

/-- Embedding of `calculate_grid_pos`: grid point `(i,j,k)` of a grid of shape
`(nx,ny,nz)` maps to the real position `(i/nx)·a1 + (j/ny)·a2 + (k/nz)·a3`
(the source's `np.dot(frac_grid, cell)` with the cell rows as lattice
vectors). -/
def calculate_grid_pos (shape : ℕ × ℕ × ℕ) (c : Cell) (i j k : ℕ) : Vec3 :=
  vadd (vadd (smulQ ((i : ℚ) / (shape.1 : ℚ)) c.a1) (smulQ ((j : ℚ) / (shape.2.1 : ℚ)) c.a2))
    (smulQ ((k : ℚ) / (shape.2.2 : ℚ)) c.a3)

/-- Embedding of `np.unravel_index` for a length-3 shape (row-major / C
order); the source only applies it to in-range flat indices. -/
def unravel3 (shape : ℕ × ℕ × ℕ) (f : ℕ) : ℕ × ℕ × ℕ :=
  (f / (shape.2.1 * shape.2.2), (f / shape.2.2) % shape.2.1, f % shape.2.2)

/-- Row-major flattening of an index triple, inverse of `unravel3`. -/
def ravel3 (shape : ℕ × ℕ × ℕ) (t : ℕ × ℕ × ℕ) : ℕ :=
  (t.1 * shape.2.1 + t.2.1) * shape.2.2 + t.2.2

/-- The probe selection of `mode='slice'`: flat indices
`arange(slice_start, slice_start + num_probes)`, unraveled. -/
def sliceChoice (shape : ℕ × ℕ × ℕ) (slice_start num_probes : ℕ) : List (ℕ × ℕ × ℕ) :=
  (List.range' slice_start num_probes).map (unravel3 shape)

/-- The probe selection of `mode='random'` with the random stream `rand`:
`num_probes` flat indices drawn in `[0, total)`, unraveled. -/
def randChoice (shape : ℕ × ℕ × ℕ) (num_probes : ℕ) (rand : ℕ → ℕ) : List (ℕ × ℕ × ℕ) :=
  (List.range num_probes).map fun m => unravel3 shape (rand m % gridTotal shape)

/-- The number of blocks of `mode='all'`: `int(np.ceil(total / num_probes))`. -/
def numBlocksOf (total num_probes : ℕ) : ℕ := (total + num_probes - 1) / num_probes

/-- Flat grid indices of block `i` in `mode='all'`: block `i` covers
`arange(i*N, (i+1)*N)` except the last block, which stops at `total`. -/
def blockFlat (total num_probes i : ℕ) : List ℕ :=
  if i = numBlocksOf total num_probes - 1
  then List.range' (i * num_probes) (total - i * num_probes)
  else List.range' (i * num_probes) num_probes

/-- The probe selection of block `i` in `mode='all'`. -/
def blockChoice (shape : ℕ × ℕ × ℕ) (num_probes i : ℕ) : List (ℕ × ℕ × ℕ) :=
  (blockFlat (gridTotal shape) num_probes i).map (unravel3 shape)

/-- Configuration of a `ProbeGraphAdder` instance (constructor defaults). -/
structure PGAConfig where
  num_probes : ℕ
  cutoff : ℚ
  include_atomic_edges : Bool
  mode : String
  slice_start : ℕ
  stride : ℕ
  implementation : String

/-- The probe-graph record attached to a host data object.  Only `edge_index`
and `cell_offsets` are optional: their presence is what the idempotence check
`hasattr` tests; all remaining fields are always written by the Assembler. -/
structure ProbeData where
  cell : Cell
  atomic_numbers : List ℕ
  natoms : ℕ
  pos : List Vec3
  target : List ℚ
  edge_index : Option (List (ℕ × ℕ))
  cell_offsets : Option (List Off3)
  neighbors : ℕ

/-- The host data record.  `extra` stands for every further attribute the
host object may carry (the Assembler never touches it). -/
structure DataObject (α : Type) where
  atomic_numbers : List ℕ
  pos : List Vec3
  cell : Cell
  charge_density : Grid
  probe_data : Option ProbeData
  extra : α

/-- The atoms object the Assembler builds from the host record
(`Atoms(numbers=..., positions=..., cell=..., pbc=[True,True,True])`). -/
def sitesOf {α : Type} (obj : DataObject α) : List Site :=
  List.zipWith (fun a p => Site.mk a p) obj.atomic_numbers obj.pos

/-- The idempotence test of `ProbeGraphAdder.__call__`:
`hasattr(data_object, 'probe_data')` and the attached record has both
`edge_index` and `cell_offsets`. -/
def probeDataComplete {α : Type} (obj : DataObject α) : Bool :=
  match obj.probe_data with
  | some pd => pd.edge_index.isSome && pd.cell_offsets.isSome
  | none => false

/-- Result tuple of `get_edges_from_choice`: the edges (edge indices plus
offsets), the combined atomic-number list, and the probe positions. -/
structure EdgesResult where
  edges : List Edge
  numbers : List ℕ
  probe_pos : List Vec3
deriving DecidableEq

/-- Real-space positions of the chosen probes (`grid_pos[probe_choice]`). -/
def probePositions (choice : List (ℕ × ℕ × ℕ)) (shape : ℕ × ℕ × ℕ) (c : Cell) : List Vec3 :=
  choice.map fun t => calculate_grid_pos shape c t.1 t.2.1 t.2.2

/-- The combined atom+probe structure (`atoms.copy()` extended by probe
pseudo-atoms of species `0`). -/
def combinedSites (choice : List (ℕ × ℕ × ℕ)) (shape : ℕ × ℕ × ℕ) (c : Cell)
    (atoms : List Site) : List Site :=
  atoms ++ (probePositions choice shape c).map fun v => ⟨0, v⟩

/-- Embedding of `ProbeGraphAdder.get_edges_from_choice`: build the combined
structure, dispatch on `self.implementation` ('ASE' → cell list with the
atoms' own pbc `[True,True,True]`; 'RGPBC' → vectorized radius graph with its
default pbc `[True,True,False]`; anything else → `NotImplementedError`). -/
def get_edges_from_choice (cfg : PGAConfig) (choice : List (ℕ × ℕ × ℕ))
    (shape : ℕ × ℕ × ℕ) (c : Cell) (atoms : List Site) : Except PyError EdgesResult :=
  if cfg.implementation = "ASE" then
    .ok ⟨ase_get_all_neighbors
        (ase_init cfg.cutoff (combinedSites choice shape c atoms) c (true, true, true))
        cfg.cutoff cfg.include_atomic_edges,
      (combinedSites choice shape c atoms).map Site.species,
      probePositions choice shape c⟩
  else if cfg.implementation = "RGPBC" then
    (rgpbc_get_all_neighbors
        (rgpbc_init cfg.cutoff (combinedSites choice shape c atoms) c rgpbcDefaultPbc)
        cfg.cutoff cfg.include_atomic_edges).map fun es =>
      ⟨es, (combinedSites choice shape c atoms).map Site.species,
        probePositions choice shape c⟩
  else .error .notImplementedError

/-- The edges produced by `get_edges_from_choice` (empty on error); used to
state invariants of the produced EdgeSet. -/
def edgesOfChoice (cfg : PGAConfig) (choice : List (ℕ × ℕ × ℕ)) (shape : ℕ × ℕ × ℕ)
    (c : Cell) (atoms : List Site) : List Edge :=
  match get_edges_from_choice cfg choice shape c atoms with
  | .ok r => r.edges
  | .error _ => []

/-- Assembly of the `probe_data` record (source lines setting
`probe_data.cell` through `probe_data.neighbors`). -/
def mkProbeData {α : Type} (obj : DataObject α) (density : Grid)
    (choice : List (ℕ × ℕ × ℕ)) (edges : List Edge) (numbers : List ℕ)
    (probe_pos : List Vec3) : ProbeData :=
  ⟨obj.cell, numbers, numbers.length, obj.pos ++ probe_pos,
    choice.map fun t => density.values t.1 t.2.1 t.2.2,
    some (edges.map fun e => (e.src, e.tgt)),
    some (edges.map Edge.off),
    edges.length⟩

/-- The in-place shift `new_edges[1] += i * num_probes` applied to block `i`'s
result in `mode='all'`. -/
def shiftBlock (num_probes i : ℕ) (r : EdgesResult) : EdgesResult :=
  ⟨r.edges.map fun e => ⟨e.src, e.tgt + i * num_probes, e.off⟩, r.numbers, r.probe_pos⟩

/-- Left-to-right effectful traversal: the source's sequential `for` loop over
blocks, stopping at the first raised exception. -/
def exceptMapList (f : ℕ → Except PyError EdgesResult) :
    List ℕ → Except PyError (List EdgesResult)
  | [] => .ok []
  | i :: is =>
    match f i with
    | .error e => .error e
    | .ok r => (exceptMapList f is).map fun rs => r :: rs

/-- Per-block edge computation of `mode='all'`: block `i`'s
`get_edges_from_choice`, with the probe-side index shift applied. -/
def all_blocks (cfg : PGAConfig) (shape : ℕ × ℕ × ℕ) (c : Cell) (atoms : List Site)
    (num_probes : ℕ) : Except PyError (List EdgesResult) :=
  exceptMapList
    (fun i => (get_edges_from_choice cfg (blockChoice shape num_probes i) shape c atoms).map
      (shiftBlock num_probes i))
    (List.range (numBlocksOf (gridTotal shape) num_probes))

/-- Embedding of the body of `ProbeGraphAdder.__call__` after the idempotence
check, with call-time parameters already resolved against the instance
defaults.  Branch by branch:
* stride outside `{1,2,4}` fails the `assert` (AssertionError);
* `mode='random'`/`'slice'`: one `get_edges_from_choice` over the selection;
* `mode='all'`: `num_probes = 0` makes `int(np.ceil(total/num_probes))`
  overflow (modelled as ValueError); otherwise the block loop runs, the
  accumulated atomic numbers are the host's followed by one zero per probe,
  and the target selection is re-set to the full grid after the loop;
* any other mode leaves `probe_edges` (etc.) unbound, so building the record
  raises UnboundLocalError. -/
def pgaCompute {α : Type} (cfg : PGAConfig) (obj : DataObject α)
    (slice_start num_probes : ℕ) (mode : String) (stride : ℕ) (rand : ℕ → ℕ) :
    Except PyError ProbeData :=
  if ¬(stride = 1 ∨ stride = 2 ∨ stride = 4) then .error .assertionError
  else if mode = "random" then
    (get_edges_from_choice cfg (randChoice (strideGrid stride obj.charge_density).shape num_probes rand)
        (strideGrid stride obj.charge_density).shape obj.cell (sitesOf obj)).map fun r =>
      mkProbeData obj (strideGrid stride obj.charge_density)
        (randChoice (strideGrid stride obj.charge_density).shape num_probes rand)
        r.edges r.numbers r.probe_pos
  else if mode = "slice" then
    (get_edges_from_choice cfg (sliceChoice (strideGrid stride obj.charge_density).shape slice_start num_probes)
        (strideGrid stride obj.charge_density).shape obj.cell (sitesOf obj)).map fun r =>
      mkProbeData obj (strideGrid stride obj.charge_density)
        (sliceChoice (strideGrid stride obj.charge_density).shape slice_start num_probes)
        r.edges r.numbers r.probe_pos
  else if mode = "all" then
    if num_probes = 0 then .error .valueError
    else
      (all_blocks cfg (strideGrid stride obj.charge_density).shape obj.cell (sitesOf obj)
          num_probes).map fun rs =>
        mkProbeData obj (strideGrid stride obj.charge_density)
          ((List.range (gridTotal (strideGrid stride obj.charge_density).shape)).map
            (unravel3 (strideGrid stride obj.charge_density).shape))
          ((rs.map EdgesResult.edges).flatten)
          (obj.atomic_numbers ++ List.replicate ((rs.map fun r => r.probe_pos.length).sum) 0)
          ((rs.map EdgesResult.probe_pos).flatten)
  else .error .unboundLocalError

/-- Embedding of `ProbeGraphAdder.__call__`: the idempotence short-circuit,
then parameter resolution (call-time overrides take precedence over the
instance defaults), then the computation; on success the freshly built
`probe_data` is attached to the host record, which is returned. -/
def probe_graph_adder_call {α : Type} (cfg : PGAConfig) (obj : DataObject α)
    (slice_startArg num_probesArg : Option ℕ) (modeArg : Option String)
    (strideArg : Option ℕ) (rand : ℕ → ℕ) : Except PyError (DataObject α) :=
  if probeDataComplete obj then .ok obj
  else
    (pgaCompute cfg obj (slice_startArg.getD cfg.slice_start) (num_probesArg.getD cfg.num_probes)
        (modeArg.getD cfg.mode) (strideArg.getD cfg.stride) rand).map fun pd =>
      { obj with probe_data := some pd }

/-- The edges `get_edges_from_choice` computes for block `i` of `mode='all'`
under the RGPBC implementation, in block-local indexing. -/
def blockEdges (cfg : PGAConfig) (shape : ℕ × ℕ × ℕ) (cm : Cell) (atoms : List Site)
    (num_probes i : ℕ) : List Edge :=
  (rgpbc_init cfg.cutoff (combinedSites (blockChoice shape num_probes i) shape cm atoms)
    cm rgpbcDefaultPbc).edges

/-- The probe positions of block `i` of `mode='all'`. -/
def blockProbePos (shape : ℕ × ℕ × ℕ) (cm : Cell) (num_probes i : ℕ) : List Vec3 :=
  probePositions (blockChoice shape num_probes i) shape cm

/-! ### Concrete fixtures used by witnesses and counterexamples -/

/-- A cubic cell of side 10. -/
def cellBig : Cell := ⟨⟨10, 0, 0⟩, ⟨0, 10, 0⟩, ⟨0, 0, 10⟩⟩

/-- A cubic cell of side 4. -/
def cellFour : Cell := ⟨⟨4, 0, 0⟩, ⟨0, 4, 0⟩, ⟨0, 0, 4⟩⟩

/-- An orthorhombic cell with a short third axis (length 4). -/
def cellFlatZ : Cell := ⟨⟨10, 0, 0⟩, ⟨0, 10, 0⟩, ⟨0, 0, 4⟩⟩

/-- One atom at the origin and one probe at distance 1 (= cutoff/2 for cutoff 2). -/
def sitesHalf : List Site := [⟨1, ⟨0, 0, 0⟩⟩, ⟨0, ⟨1, 0, 0⟩⟩]

/-- One atom at the origin and one probe at distance 4 (= 2·cutoff for cutoff 2). -/
def sitesFar : List Site := [⟨1, ⟨0, 0, 0⟩⟩, ⟨0, ⟨4, 0, 0⟩⟩]

/-- One atom at fractional 0.05 and one probe at fractional 0.95 of `cellFour`'s
first axis: their nearest periodic images are 0.4 apart, via a nonzero offset. -/
def sitesOffset : List Site := [⟨1, ⟨1/5, 0, 0⟩⟩, ⟨0, ⟨19/5, 0, 0⟩⟩]

/-- A single atom at the origin. -/
def atomsOne : List Site := [⟨1, ⟨0, 0, 0⟩⟩]

/-- Probe choice selecting grid point `(1,0,0)` of a 5x1x1 grid. -/
def choiceX : List (ℕ × ℕ × ℕ) := [(1, 0, 0)]

/-- Probe choice selecting grid point `(0,0,3)`. -/
def choiceZ : List (ℕ × ℕ × ℕ) := [(0, 0, 3)]

/-- Probe choice selecting grid point `(0,0,0)`. -/
def choiceO : List (ℕ × ℕ × ℕ) := [(0, 0, 0)]

/-- RGPBC configuration with cutoff 2. -/
def cfgR2 : PGAConfig := ⟨1000, 2, false, "slice", 0, 1, "RGPBC"⟩

/-- ASE configuration with cutoff 2. -/
def cfgA2 : PGAConfig := ⟨1000, 2, false, "slice", 0, 1, "ASE"⟩

/-- ASE configuration with cutoff 1. -/
def cfgA1 : PGAConfig := ⟨1000, 1, false, "slice", 0, 1, "ASE"⟩

/-- A configuration whose sampling mode is not one of random/slice/all. -/
def cfgFoo : PGAConfig := ⟨1, 1, false, "foo", 0, 1, "RGPBC"⟩

/-- A configuration whose neighbor-finding implementation name is unsupported. -/
def cfgBadImpl : PGAConfig := ⟨1, 1, false, "slice", 0, 1, "NONE"⟩

/-- RGPBC configuration for `mode='all'` with block size 2 and cutoff 2. -/
def cfgAll : PGAConfig := ⟨2, 2, false, "all", 0, 1, "RGPBC"⟩

/-- RGPBC configuration for `mode='slice'` with one probe and cutoff 2. -/
def cfgSlice : PGAConfig := ⟨1, 2, false, "slice", 0, 1, "RGPBC"⟩

/-- A minimal host record: one atom at the origin, a 1x1x1 grid, no attached
probe data. -/
def objW : DataObject Unit :=
  ⟨[1], [⟨0, 0, 0⟩], cellFour, ⟨(1, 1, 1), fun _ _ _ => 0⟩, none, ()⟩

/-- A host record with one atom and a 1x1x3 grid whose density value at
`(i,j,k)` is `k`. -/
def objGrid : DataObject Unit :=
  ⟨[1], [⟨0, 0, 0⟩], cellBig, ⟨(1, 1, 3), fun _ _ k => (k : ℚ)⟩, none, ()⟩

/-- A complete probe-data record (both optional fields present). -/
def pdDone : ProbeData := ⟨cellFour, [], 0, [], [], some [], some [], 0⟩

/-- A host record that already carries a complete probe graph. -/
def objDone : DataObject Unit :=
  ⟨[1], [⟨0, 0, 0⟩], cellFour, ⟨(1, 1, 1), fun _ _ _ => 0⟩, some pdDone, ()⟩

end CDM

namespace CDM

/-! ### Helper lemmas -/

/-- Unfolding `get_edges_from_choice` for the RGPBC implementation: the
matching-cutoff assertion passes and the precomputed edges are returned. -/
theorem gefc_rgpbc (cfg : PGAConfig) (choice : List (ℕ × ℕ × ℕ)) (shape : ℕ × ℕ × ℕ)
    (c : Cell) (atoms : List Site) (himpl : cfg.implementation = "RGPBC") :
    get_edges_from_choice cfg choice shape c atoms =
      .ok ⟨(rgpbc_init cfg.cutoff (combinedSites choice shape c atoms) c rgpbcDefaultPbc).edges,
        (combinedSites choice shape c atoms).map Site.species,
        probePositions choice shape c⟩ := by
  rw [get_edges_from_choice, himpl]
  simp [rgpbc_get_all_neighbors, rgpbc_init, Except.map]

/-! ### Concrete evaluations -/

/-- `List.range 1` as a literal. -/
theorem rangeFix1 : List.range 1 = [0] := rfl

/-- `List.range 2` as a literal. -/
theorem rangeFix2 : List.range 2 = [0, 1] := rfl

/-- `rangeSym 0` as a literal. -/
theorem rangeSymFix0 : rangeSym 0 = [0] := rfl

/-- `rangeSym 1` as a literal. -/
theorem rangeSymFix1 : rangeSym 1 = [-1, 0, 1] := rfl

/-- Replication counts for cutoff 2 in `cellBig` under `[True,True,False]`. -/
theorem cellsFixBigTTF : cellsRange 2 cellBig rgpbcDefaultPbc = unitCells 1 1 0 := by
  norm_num [cellsRange, rgpbcDefaultPbc, repCount, crossV, dotV, normSq, cellBig,
    ceilSqrt, rangeFix2, List.find?]

/-- Replication counts for cutoff 2 in `cellBig` under `[True,True,True]`. -/
theorem cellsFixBigTTT : cellsRange 2 cellBig (true, true, true) = unitCells 1 1 1 := by
  norm_num [cellsRange, repCount, crossV, dotV, normSq, cellBig,
    ceilSqrt, rangeFix2, List.find?]

/-- Replication counts for cutoff 2 in `cellFlatZ` under `[True,True,False]`. -/
theorem cellsFixZTTF : cellsRange 2 cellFlatZ rgpbcDefaultPbc = unitCells 1 1 0 := by
  norm_num [cellsRange, rgpbcDefaultPbc, repCount, crossV, dotV, normSq, cellFlatZ,
    ceilSqrt, rangeFix2, List.find?]

/-- Replication counts for cutoff 2 in `cellFlatZ` under `[True,True,True]`. -/
theorem cellsFixZTTT : cellsRange 2 cellFlatZ (true, true, true) = unitCells 1 1 1 := by
  norm_num [cellsRange, repCount, crossV, dotV, normSq, cellFlatZ,
    ceilSqrt, rangeFix2, List.find?]

/-- Replication counts for cutoff 1 in `cellFour` under `[True,True,True]`. -/
theorem cellsFixFourTTT : cellsRange 1 cellFour (true, true, true) = unitCells 1 1 1 := by
  norm_num [cellsRange, repCount, crossV, dotV, normSq, cellFour,
    ceilSqrt, rangeFix2, List.find?]

/-- RGPBC on the isolated atom with one probe at distance cutoff/2: exactly
one edge, with zero offset. -/
theorem evalRgpbcHalf :
    (rgpbc_init 2 sitesHalf cellBig rgpbcDefaultPbc).edges = [⟨0, 1, (0, 0, 0)⟩] := by
  rw [rgpbc_init, cellsFixBigTTF]
  norm_num [atomIndices, probeIndices, sitesHalf, speciesAt, siteAt, rangeFix2,
    List.filter_cons, List.filter_nil, unitCells, rangeSymFix0, rangeSymFix1,
    List.flatMap_cons, List.flatMap_nil, List.filterMap_cons, List.filterMap_nil,
    pairDistSq, posAt, vadd, vsub, smulQ, cellShift, negO, cellBig, normSq]

set_option maxHeartbeats 1000000 in
/-- ASE on the isolated atom with one probe at distance cutoff/2: exactly one
edge, with zero offset. -/
theorem evalAseHalf :
    ase_get_all_neighbors (ase_init 2 sitesHalf cellBig (true, true, true)) 2 false =
      [⟨0, 1, (0, 0, 0)⟩] := by
  rw [ase_get_all_neighbors,
    show (ase_init 2 sitesHalf cellBig (true, true, true)).num_atoms = 1 from rfl,
    show (ase_init 2 sitesHalf cellBig (true, true, true)).cutoff = 2 from rfl,
    show (ase_init 2 sitesHalf cellBig (true, true, true)).sites = sitesHalf from rfl,
    show (ase_init 2 sitesHalf cellBig (true, true, true)).cell = cellBig from rfl,
    show (ase_init 2 sitesHalf cellBig (true, true, true)).pbc = (true, true, true) from rfl,
    rangeFix1, List.flatMap_cons, List.flatMap_nil, ase_lib_get_neighbors,
    show sitesHalf.length = 2 from rfl, rangeFix2, cellsFixBigTTT]
  norm_num [sitesHalf, speciesAt, siteAt,
    List.filter_cons, List.filter_nil, unitCells, rangeSymFix1,
    List.flatMap_cons, List.flatMap_nil, List.filterMap_cons, List.filterMap_nil,
    pairDistSq, posAt, vadd, vsub, smulQ, cellShift, negO, cellBig, normSq]

/-- RGPBC on the isolated atom with one probe at distance 2·cutoff: no edges. -/
theorem evalRgpbcFar :
    (rgpbc_init 2 sitesFar cellBig rgpbcDefaultPbc).edges = [] := by
  rw [rgpbc_init, cellsFixBigTTF]
  norm_num [atomIndices, probeIndices, sitesFar, speciesAt, siteAt, rangeFix2,
    List.filter_cons, List.filter_nil, unitCells, rangeSymFix0, rangeSymFix1,
    List.flatMap_cons, List.flatMap_nil, List.filterMap_cons, List.filterMap_nil,
    pairDistSq, posAt, vadd, vsub, smulQ, cellShift, negO, cellBig, normSq]

set_option maxHeartbeats 1000000 in
/-- ASE on the isolated atom with one probe at distance 2·cutoff: no edges. -/
theorem evalAseFar :
    ase_get_all_neighbors (ase_init 2 sitesFar cellBig (true, true, true)) 2 false = [] := by
  rw [ase_get_all_neighbors,
    show (ase_init 2 sitesFar cellBig (true, true, true)).num_atoms = 1 from rfl,
    show (ase_init 2 sitesFar cellBig (true, true, true)).cutoff = 2 from rfl,
    show (ase_init 2 sitesFar cellBig (true, true, true)).sites = sitesFar from rfl,
    show (ase_init 2 sitesFar cellBig (true, true, true)).cell = cellBig from rfl,
    show (ase_init 2 sitesFar cellBig (true, true, true)).pbc = (true, true, true) from rfl,
    rangeFix1, List.flatMap_cons, List.flatMap_nil, ase_lib_get_neighbors,
    show sitesFar.length = 2 from rfl, rangeFix2, cellsFixBigTTT]
  norm_num [sitesFar, speciesAt, siteAt,
    List.filter_cons, List.filter_nil, unitCells, rangeSymFix1,
    List.flatMap_cons, List.flatMap_nil, List.filterMap_cons, List.filterMap_nil,
    pairDistSq, posAt, vadd, vsub, smulQ, cellShift, negO, cellBig, normSq]

/-- The combined structure of the third-axis counterexample: the atom at the
origin and the probe at grid point `(0,0,3)` of a 1x1x4 grid in `cellFlatZ`,
i.e. real position `(0,0,3)`. -/
theorem evalCombinedZ :
    combinedSites choiceZ (1, 1, 4) cellFlatZ atomsOne =
      [⟨1, ⟨0, 0, 0⟩⟩, ⟨0, ⟨0, 0, 3⟩⟩] := by
  norm_num [combinedSites, probePositions, choiceZ, atomsOne, calculate_grid_pos,
    cellFlatZ, vadd, smulQ]

set_option maxHeartbeats 1000000 in
/-- RGPBC misses the pair whose only in-range periodic image needs a
third-axis translation: no edges at all. -/
theorem evalRgpbcZ : edgesOfChoice cfgR2 choiceZ (1, 1, 4) cellFlatZ atomsOne = [] := by
  rw [edgesOfChoice, gefc_rgpbc cfgR2 _ _ _ _ rfl]
  dsimp only
  rw [show cfgR2.cutoff = 2 from rfl, evalCombinedZ, rgpbc_init, cellsFixZTTF]
  norm_num [atomIndices, probeIndices, speciesAt, siteAt, rangeFix2,
    List.filter_cons, List.filter_nil, unitCells, rangeSymFix0, rangeSymFix1,
    List.flatMap_cons, List.flatMap_nil, List.filterMap_cons, List.filterMap_nil,
    pairDistSq, posAt, vadd, vsub, smulQ, cellShift, negO, cellFlatZ, normSq]

set_option maxHeartbeats 1000000 in
/-- The cell-list strategy does find the third-axis image pair: one edge,
with offset `(0,0,-1)` (the raw library offset, kept unnegated). -/
theorem evalAseZ :
    edgesOfChoice cfgA2 choiceZ (1, 1, 4) cellFlatZ atomsOne = [⟨0, 1, (0, 0, -1)⟩] := by
  rw [edgesOfChoice, get_edges_from_choice,
    if_pos (show cfgA2.implementation = "ASE" from rfl)]
  dsimp only
  rw [show cfgA2.cutoff = 2 from rfl, show cfgA2.include_atomic_edges = false from rfl,
    evalCombinedZ, ase_get_all_neighbors,
    show (ase_init 2 [⟨1, ⟨0, 0, 0⟩⟩, ⟨0, ⟨0, 0, 3⟩⟩] cellFlatZ (true, true, true)).num_atoms = 1
      from rfl,
    show (ase_init 2 [⟨1, ⟨0, 0, 0⟩⟩, ⟨0, ⟨0, 0, 3⟩⟩] cellFlatZ (true, true, true)).cutoff = 2
      from rfl,
    show (ase_init 2 [⟨1, ⟨0, 0, 0⟩⟩, ⟨0, ⟨0, 0, 3⟩⟩] cellFlatZ (true, true, true)).sites =
      [⟨1, ⟨0, 0, 0⟩⟩, ⟨0, ⟨0, 0, 3⟩⟩] from rfl,
    show (ase_init 2 [⟨1, ⟨0, 0, 0⟩⟩, ⟨0, ⟨0, 0, 3⟩⟩] cellFlatZ (true, true, true)).cell =
      cellFlatZ from rfl,
    show (ase_init 2 [⟨1, ⟨0, 0, 0⟩⟩, ⟨0, ⟨0, 0, 3⟩⟩] cellFlatZ (true, true, true)).pbc =
      (true, true, true) from rfl,
    rangeFix1, List.flatMap_cons, List.flatMap_nil, ase_lib_get_neighbors,
    show ([⟨1, ⟨0, 0, 0⟩⟩, ⟨0, ⟨0, 0, 3⟩⟩] : List Site).length = 2 from rfl,
    rangeFix2, cellsFixZTTT]
  norm_num [speciesAt, siteAt,
    List.filter_cons, List.filter_nil, unitCells, rangeSymFix1,
    List.flatMap_cons, List.flatMap_nil, List.filterMap_cons, List.filterMap_nil,
    pairDistSq, posAt, vadd, vsub, smulQ, cellShift, negO, cellFlatZ, normSq]

/-- The combined structure of the coincident-probe counterexample: the probe
at grid point `(0,0,0)` sits exactly on the atom at the origin. -/
theorem evalCombinedO :
    combinedSites choiceO (2, 2, 2) cellFour atomsOne =
      [⟨1, ⟨0, 0, 0⟩⟩, ⟨0, ⟨0, 0, 0⟩⟩] := by
  norm_num [combinedSites, probePositions, choiceO, atomsOne, calculate_grid_pos,
    cellFour, vadd, smulQ]

set_option maxHeartbeats 1000000 in
/-- The cell-list strategy emits the zero-distance atom-probe pair when a
probe coincides with an atom. -/
theorem evalAseO :
    edgesOfChoice cfgA1 choiceO (2, 2, 2) cellFour atomsOne = [⟨0, 1, (0, 0, 0)⟩] := by
  rw [edgesOfChoice, get_edges_from_choice,
    if_pos (show cfgA1.implementation = "ASE" from rfl)]
  dsimp only
  rw [show cfgA1.cutoff = 1 from rfl, show cfgA1.include_atomic_edges = false from rfl,
    evalCombinedO, ase_get_all_neighbors,
    show (ase_init 1 [⟨1, ⟨0, 0, 0⟩⟩, ⟨0, ⟨0, 0, 0⟩⟩] cellFour (true, true, true)).num_atoms = 1
      from rfl,
    show (ase_init 1 [⟨1, ⟨0, 0, 0⟩⟩, ⟨0, ⟨0, 0, 0⟩⟩] cellFour (true, true, true)).cutoff = 1
      from rfl,
    show (ase_init 1 [⟨1, ⟨0, 0, 0⟩⟩, ⟨0, ⟨0, 0, 0⟩⟩] cellFour (true, true, true)).sites =
      [⟨1, ⟨0, 0, 0⟩⟩, ⟨0, ⟨0, 0, 0⟩⟩] from rfl,
    show (ase_init 1 [⟨1, ⟨0, 0, 0⟩⟩, ⟨0, ⟨0, 0, 0⟩⟩] cellFour (true, true, true)).cell =
      cellFour from rfl,
    show (ase_init 1 [⟨1, ⟨0, 0, 0⟩⟩, ⟨0, ⟨0, 0, 0⟩⟩] cellFour (true, true, true)).pbc =
      (true, true, true) from rfl,
    rangeFix1, List.flatMap_cons, List.flatMap_nil, ase_lib_get_neighbors,
    show ([⟨1, ⟨0, 0, 0⟩⟩, ⟨0, ⟨0, 0, 0⟩⟩] : List Site).length = 2 from rfl,
    rangeFix2, cellsFixFourTTT]
  norm_num [speciesAt, siteAt,
    List.filter_cons, List.filter_nil, unitCells, rangeSymFix1,
    List.flatMap_cons, List.flatMap_nil, List.filterMap_cons, List.filterMap_nil,
    pairDistSq, posAt, vadd, vsub, smulQ, cellShift, negO, cellFour, normSq]

set_option maxHeartbeats 1000000 in
/-- The ASE library reports the `sitesOffset` pair through the periodic image
with library offset `(-1,0,0)`. -/
theorem evalLibOffset :
    ase_lib_get_neighbors 1 sitesOffset cellFour (true, true, true) 0 =
      [(1, ((-1 : ℤ), (0 : ℤ), (0 : ℤ)))] := by
  rw [ase_lib_get_neighbors, show sitesOffset.length = 2 from rfl, rangeFix2, cellsFixFourTTT]
  norm_num [sitesOffset, speciesAt, siteAt, unitCells,
    rangeSymFix1, List.flatMap_cons, List.flatMap_nil, List.filterMap_cons,
    List.filterMap_nil, pairDistSq, posAt, vadd, vsub, smulQ, cellShift, cellFour, normSq]

/-- `get_all_neighbors` keeps the raw library offset `(-1,0,0)`. -/
theorem evalAseAllOffset :
    ase_get_all_neighbors (ase_init 1 sitesOffset cellFour (true, true, true)) 1 false =
      [⟨0, 1, ((-1 : ℤ), (0 : ℤ), (0 : ℤ))⟩] := by
  rw [ase_get_all_neighbors,
    show (ase_init 1 sitesOffset cellFour (true, true, true)).num_atoms = 1 from rfl,
    show (ase_init 1 sitesOffset cellFour (true, true, true)).cutoff = 1 from rfl,
    show (ase_init 1 sitesOffset cellFour (true, true, true)).sites = sitesOffset from rfl,
    show (ase_init 1 sitesOffset cellFour (true, true, true)).cell = cellFour from rfl,
    show (ase_init 1 sitesOffset cellFour (true, true, true)).pbc = (true, true, true) from rfl,
    rangeFix1, List.flatMap_cons, List.flatMap_nil, evalLibOffset]
  norm_num [List.filter_cons, List.filter_nil, sitesOffset, speciesAt, siteAt]

/-- The wrapper's own `get_neighbors` negates the library offset to `(1,0,0)`. -/
theorem evalAseGetNeighbors :
    ase_get_neighbors (ase_init 1 sitesOffset cellFour (true, true, true)) 0 1 =
      .ok [(1, ((1 : ℤ), (0 : ℤ), (0 : ℤ)))] := by
  rw [ase_get_neighbors,
    if_pos (show (1 : ℚ) = (ase_init 1 sitesOffset cellFour (true, true, true)).cutoff
      from rfl),
    show (ase_init 1 sitesOffset cellFour (true, true, true)).cutoff = 1 from rfl,
    show (ase_init 1 sitesOffset cellFour (true, true, true)).sites = sitesOffset from rfl,
    show (ase_init 1 sitesOffset cellFour (true, true, true)).cell = cellFour from rfl,
    show (ase_init 1 sitesOffset cellFour (true, true, true)).pbc = (true, true, true) from rfl,
    evalLibOffset]
  norm_num [negO]

/-- Distance bookkeeping for the offset sign flip: an edge stored with offset
`-t` has, under the record convention, exactly the squared distance the mask
tested for translation `t`. -/
theorem edge_negO_dist (sites : List Site) (cm : Cell) (a p : ℕ) (t : Off3) :
    edgeDistSq sites cm ⟨a, p, negO t⟩ = pairDistSq sites cm a p t := by
  simp only [edgeDistSq, pairDistSq, normSq, vadd, vsub, smulQ, cellShift, negO]
  push_cast
  ring

/-- Membership in `atomIndices` means: in range and non-probe species. -/
theorem atomIndices_spec (sites : List Site) (a : ℕ) (h : a ∈ atomIndices sites) :
    a < sites.length ∧ speciesAt sites a ≠ 0 := by
  rw [atomIndices, List.mem_filter, List.mem_range] at h
  exact ⟨h.1, by simpa using h.2⟩

/-- Membership in `probeIndices` means: in range and probe species. -/
theorem probeIndices_spec (sites : List Site) (p : ℕ) (h : p ∈ probeIndices sites) :
    p < sites.length ∧ speciesAt sites p = 0 := by
  rw [probeIndices, List.mem_filter, List.mem_range] at h
  exact ⟨h.1, by simpa using h.2⟩

/-- Every edge produced by `rgpbc_init` joins an atom index to a probe index
and arises from a translation that passed the distance mask. -/
theorem rgpbc_edge_shape (r : ℚ) (sites : List Site) (cm : Cell)
    (pbc : Bool × Bool × Bool) (e : Edge)
    (he : e ∈ (rgpbc_init r sites cm pbc).edges) :
    e.src ∈ atomIndices sites ∧ e.tgt ∈ probeIndices sites := by
  rw [rgpbc_init] at he
  simp only [List.mem_flatMap, List.mem_filterMap, List.mem_map] at he
  obtain ⟨ap, ⟨a, ha, p, hp, hap⟩, t, -, ht⟩ := he
  by_cases hcond : 1 / 10000 < pairDistSq sites cm ap.1 ap.2 t ∧
      pairDistSq sites cm ap.1 ap.2 t ≤ r * r
  · rw [if_pos hcond, Option.some_inj] at ht
    subst ht
    subst hap
    exact ⟨ha, hp⟩
  · rw [if_neg hcond] at ht
    exact absurd ht (by simp)

/-- Species of an index into the left part of an appended site list. -/
theorem speciesAt_append_left (l1 l2 : List Site) (n : ℕ) (h : n < l1.length) :
    speciesAt (l1 ++ l2) n = speciesAt l1 n := by
  rw [speciesAt, speciesAt, siteAt, siteAt, List.get?_append h]

/-- An in-range index of a list of all-nonzero species has nonzero species. -/
theorem speciesAt_ne_zero (l1 : List Site) (n : ℕ) (h : n < l1.length)
    (hA : ∀ s ∈ l1, s.species ≠ 0) : speciesAt l1 n ≠ 0 := by
  rw [speciesAt, siteAt, List.get?_eq_get h, Option.getD_some]
  exact hA _ (List.get_mem l1 n h)

/-- Indices past the real atoms of a combined structure carry probe species. -/
theorem speciesAt_combined_probe (choice : List (ℕ × ℕ × ℕ)) (shape : ℕ × ℕ × ℕ)
    (cm : Cell) (atoms : List Site) (n : ℕ) (h1 : atoms.length ≤ n)
    (h2 : n < (combinedSites choice shape cm atoms).length) :
    speciesAt (combinedSites choice shape cm atoms) n = 0 := by
  rw [combinedSites] at h2 ⊢
  rw [speciesAt, siteAt, List.get?_append_right h1, List.get?_map]
  rw [List.length_append, List.length_map] at h2
  have hlt : n - atoms.length < (probePositions choice shape cm).length := by omega
  rw [List.get?_eq_get hlt]
  rfl

/-- The ASE wrapper built over a combined structure whose real atoms all have
nonzero species counts exactly the real atoms. -/
theorem num_atoms_combined (c : ℚ) (choice : List (ℕ × ℕ × ℕ)) (shape : ℕ × ℕ × ℕ)
    (cm : Cell) (pbc : Bool × Bool × Bool) (atoms : List Site)
    (hA : ∀ s ∈ atoms, s.species ≠ 0) :
    (ase_init c (combinedSites choice shape cm atoms) cm pbc).num_atoms = atoms.length := by
  rw [ase_init, combinedSites]
  show ((atoms ++ (probePositions choice shape cm).map fun v => Site.mk 0 v).filter
    fun s => s.species != 0).length = atoms.length
  rw [List.filter_append]
  have h1 : atoms.filter (fun s => s.species != 0) = atoms :=
    List.filter_eq_self.mpr fun s hs => by simpa using hA s hs
  have h2 : (((probePositions choice shape cm).map fun v => Site.mk 0 v).filter
      fun s => s.species != 0) = [] := by
    rw [List.filter_eq_nil_iff]
    intro s hs
    rw [List.mem_map] at hs
    obtain ⟨v, -, rfl⟩ := hs
    simp
  rw [h1, h2, List.length_append, List.length_nil]
  omega

/-- Every edge produced by the ASE wrapper's `get_all_neighbors` has a source
below `num_atoms`, and — unless atomic edges were requested — a probe target. -/
theorem ase_edge_shape (w : AseWrapper) (c : ℚ) (flag : Bool) (e : Edge)
    (he : e ∈ ase_get_all_neighbors w c flag) :
    e.src < w.num_atoms ∧ (flag = false → speciesAt w.sites e.tgt = 0) := by
  rw [ase_get_all_neighbors] at he
  simp only [List.mem_flatMap, List.mem_map, List.mem_filter, List.mem_range] at he
  obtain ⟨i, hi, jo, ⟨-, hkeep⟩, hjo⟩ := he
  subst hjo
  refine ⟨hi, fun hflag => ?_⟩
  rw [hflag] at hkeep
  simpa using hkeep

/-- Species of an index past the left part of an appended site list whose
right part has all-probe species. -/
theorem speciesAt_append_probe (atoms probes : List Site) (n : ℕ)
    (h1 : atoms.length ≤ n) (h2 : n < atoms.length + probes.length)
    (hP : ∀ s ∈ probes, s.species = 0) : speciesAt (atoms ++ probes) n = 0 := by
  rw [speciesAt, siteAt, List.get?_append_right h1]
  have hlt : n - atoms.length < probes.length := by omega
  rw [List.get?_eq_get hlt, Option.getD_some]
  exact hP _ (List.get_mem probes _ hlt)

/-- The ASE wrapper built over an atoms-then-probes structure counts exactly
the real atoms. -/
theorem ase_num_atoms_append (c : ℚ) (atoms probes : List Site) (cm : Cell)
    (pbc : Bool × Bool × Bool) (hA : ∀ s ∈ atoms, s.species ≠ 0)
    (hP : ∀ s ∈ probes, s.species = 0) :
    (ase_init c (atoms ++ probes) cm pbc).num_atoms = atoms.length := by
  rw [ase_init]
  show ((atoms ++ probes).filter fun s => s.species != 0).length = atoms.length
  rw [List.filter_append]
  have h1 : atoms.filter (fun s => s.species != 0) = atoms :=
    List.filter_eq_self.mpr fun s hs => by simpa using hA s hs
  have h2 : probes.filter (fun s => s.species != 0) = [] := by
    rw [List.filter_eq_nil_iff]
    intro s hs
    simpa using hP s hs
  rw [h1, h2, List.length_append, List.length_nil]
  omega

/-- Completeness of the modelled cell-list strategy: every atom-probe pair
with a periodic image inside the enumerated translation range and within the
cutoff produces the corresponding edge in `get_all_neighbors` (for any cutoff
argument and either value of the atomic-edges flag). -/
theorem ase_completeness (r c : ℚ) (flag : Bool) (atoms probes : List Site)
    (cm : Cell) (pbc : Bool × Bool × Bool) (a p : ℕ) (o : Off3)
    (hA : ∀ s ∈ atoms, s.species ≠ 0) (hP : ∀ s ∈ probes, s.species = 0)
    (ha : a < atoms.length) (hp1 : atoms.length ≤ p)
    (hp2 : p < atoms.length + probes.length)
    (ho : o ∈ cellsRange r cm pbc)
    (hd : pairDistSq (atoms ++ probes) cm a p o ≤ r * r) :
    (⟨a, p, o⟩ : Edge) ∈
      ase_get_all_neighbors (ase_init r (atoms ++ probes) cm pbc) c flag := by
  have hspec : speciesAt (atoms ++ probes) p = 0 :=
    speciesAt_append_probe atoms probes p hp1 hp2 hP
  rw [ase_get_all_neighbors]
  simp only [List.mem_flatMap, List.mem_map, List.mem_filter, List.mem_range]
  refine ⟨a, ?_, ⟨(p, o), ⟨?_, ?_⟩, rfl⟩⟩
  · rw [ase_num_atoms_append r atoms probes cm pbc hA hP]
    exact ha
  · rw [show (ase_init r (atoms ++ probes) cm pbc).cutoff = r from rfl,
      show (ase_init r (atoms ++ probes) cm pbc).sites = atoms ++ probes from rfl,
      show (ase_init r (atoms ++ probes) cm pbc).cell = cm from rfl,
      show (ase_init r (atoms ++ probes) cm pbc).pbc = pbc from rfl,
      ase_lib_get_neighbors]
    simp only [List.mem_flatMap, List.mem_filterMap, List.mem_range]
    refine ⟨p, ?_, o, ho, ?_⟩
    · rw [List.length_append]
      exact hp2
    · rw [if_pos]
      constructor
      · intro hc
        omega
      · exact hd
  · rw [show (ase_init r (atoms ++ probes) cm pbc).sites = atoms ++ probes from rfl,
      hspec]
    simp

/-! ### Claim C1 -/

/-- C1 (amended): completeness holds for the cell-list strategy — every
atom-probe pair with a periodic image inside the enumerated translation range
at distance within the cutoff yields an edge — but not for the vectorized
strategy, whose periodicity is fixed to `[True,True,False]` (see the
counterexample).  The concrete single-atom examples hold for both strategies:
a probe at distance cutoff/2 gives exactly one zero-offset atom-probe edge,
and a probe at distance 2·cutoff gives no edge. -/
theorem C1_neighbor_completeness :
    (∀ (r c : ℚ) (flag : Bool) (atoms probes : List Site) (cm : Cell)
      (pbc : Bool × Bool × Bool) (a p : ℕ) (o : Off3),
      (∀ s ∈ atoms, s.species ≠ 0) → (∀ s ∈ probes, s.species = 0) →
      a < atoms.length → atoms.length ≤ p → p < atoms.length + probes.length →
      o ∈ cellsRange r cm pbc →
      pairDistSq (atoms ++ probes) cm a p o ≤ r * r →
      (⟨a, p, o⟩ : Edge) ∈
        ase_get_all_neighbors (ase_init r (atoms ++ probes) cm pbc) c flag)
    ∧ (rgpbc_init 2 sitesHalf cellBig rgpbcDefaultPbc).edges = [⟨0, 1, (0, 0, 0)⟩]
    ∧ ase_get_all_neighbors (ase_init 2 sitesHalf cellBig (true, true, true)) 2 false =
      [⟨0, 1, (0, 0, 0)⟩]
    ∧ (rgpbc_init 2 sitesFar cellBig rgpbcDefaultPbc).edges = []
    ∧ ase_get_all_neighbors (ase_init 2 sitesFar cellBig (true, true, true)) 2 false = [] :=
  ⟨ase_completeness, evalRgpbcHalf, evalAseHalf, evalRgpbcFar, evalAseFar⟩

/-- Witness for C1's amended completeness statement: the third-axis image
pair of the counterexample configuration is found by the cell-list strategy. -/
theorem C1_neighbor_completeness_witness :
    (∀ s ∈ atomsOne, s.species ≠ 0) ∧
    ((0, 0, -1) : Off3) ∈ cellsRange 2 cellFlatZ (true, true, true) ∧
    pairDistSq (atomsOne ++ [⟨0, ⟨0, 0, 3⟩⟩]) cellFlatZ 0 1 (0, 0, -1) ≤ 2 * 2 ∧
    (⟨0, 1, (0, 0, -1)⟩ : Edge) ∈
      ase_get_all_neighbors
        (ase_init 2 (atomsOne ++ [⟨0, ⟨0, 0, 3⟩⟩]) cellFlatZ (true, true, true)) 2 false :=
  ⟨by decide,
   by rw [cellsFixZTTT]; decide,
   by norm_num [pairDistSq, posAt, siteAt, atomsOne, vadd, vsub, smulQ, cellShift,
     cellFlatZ, normSq],
   C1_neighbor_completeness.1 2 2 false atomsOne [⟨0, ⟨0, 0, 3⟩⟩] cellFlatZ
     (true, true, true) 0 1 (0, 0, -1) (by decide) (by decide) (by decide) (by decide)
     (by decide) (by rw [cellsFixZTTT]; decide)
     (by norm_num [pairDistSq, posAt, siteAt, atomsOne, vadd, vsub, smulQ, cellShift,
       cellFlatZ, normSq])⟩

/-- C1 counterexample: an atom-probe pair whose true periodic distance is 1
(cutoff 2, via the third-axis image `(0,0,-1)`) gets *no* edge from the
vectorized strategy as invoked by `get_edges_from_choice`, because the
wrapper's pbc default `[True,True,False]` never replicates the third axis. -/
theorem C1_counterexample :
    edgesOfChoice cfgR2 choiceZ (1, 1, 4) cellFlatZ atomsOne = []
    ∧ 1 / 10000 <
      pairDistSq (combinedSites choiceZ (1, 1, 4) cellFlatZ atomsOne) cellFlatZ 0 1 (0, 0, -1)
    ∧ pairDistSq (combinedSites choiceZ (1, 1, 4) cellFlatZ atomsOne) cellFlatZ 0 1 (0, 0, -1)
      ≤ 2 * 2
    ∧ speciesAt (combinedSites choiceZ (1, 1, 4) cellFlatZ atomsOne) 0 ≠ 0
    ∧ speciesAt (combinedSites choiceZ (1, 1, 4) cellFlatZ atomsOne) 1 = 0 := by
  refine ⟨evalRgpbcZ, ?_, ?_, ?_, ?_⟩ <;> rw [evalCombinedZ] <;>
    norm_num [pairDistSq, posAt, siteAt, speciesAt, vadd, vsub, smulQ, cellShift,
      cellFlatZ, normSq]

/-! ### Claim C3 -/

/-- C3: the offsets returned by the cell-list strategy's `get_all_neighbors`
are the *raw* library offsets, not their negation — `get_all_neighbors`
queries the library directly and skips the sign flip that the wrapper's own
`get_neighbors` applies. -/
theorem C3_offset_sign :
    ase_lib_get_neighbors 1 sitesOffset cellFour (true, true, true) 0 =
      [(1, ((-1 : ℤ), (0 : ℤ), (0 : ℤ)))]
    ∧ ase_get_all_neighbors (ase_init 1 sitesOffset cellFour (true, true, true)) 1 false =
      [⟨0, 1, ((-1 : ℤ), (0 : ℤ), (0 : ℤ))⟩]
    ∧ ase_get_neighbors (ase_init 1 sitesOffset cellFour (true, true, true)) 0 1 =
      .ok [(1, ((1 : ℤ), (0 : ℤ), (0 : ℤ)))]
    ∧ ((-1 : ℤ), (0 : ℤ), (0 : ℤ)) ≠ negO ((-1 : ℤ), (0 : ℤ), (0 : ℤ)) :=
  ⟨evalLibOffset, evalAseAllOffset, evalAseGetNeighbors, by decide⟩

/-! ### Claim C2 -/

/-- C2 (amended): every edge produced by the vectorized radius-graph strategy
has real squared distance — after applying the stored offset through the cell
under the record convention — in `(1e-4, cutoff²]`; in particular no
zero-distance self pair.  (The cell-list strategy does not guarantee this;
see the counterexample.) -/
theorem C2_edge_distance (r : ℚ) (sites : List Site) (cm : Cell)
    (pbc : Bool × Bool × Bool) (e : Edge)
    (he : e ∈ (rgpbc_init r sites cm pbc).edges) :
    1 / 10000 < edgeDistSq sites cm e ∧ edgeDistSq sites cm e ≤ r * r := by
  rw [rgpbc_init] at he
  simp only [List.mem_flatMap, List.mem_filterMap, List.mem_map] at he
  obtain ⟨ap, -, t, -, ht⟩ := he
  by_cases hcond : 1 / 10000 < pairDistSq sites cm ap.1 ap.2 t ∧
      pairDistSq sites cm ap.1 ap.2 t ≤ r * r
  · rw [if_pos hcond, Option.some_inj] at ht
    subst ht
    rw [edge_negO_dist]
    exact hcond
  · rw [if_neg hcond] at ht
    exact absurd ht (by simp)

/-- Witness for C2 at a concrete produced edge. -/
theorem C2_edge_distance_witness :
    (⟨0, 1, (0, 0, 0)⟩ : Edge) ∈ (rgpbc_init 2 sitesHalf cellBig rgpbcDefaultPbc).edges ∧
    (1 / 10000 < edgeDistSq sitesHalf cellBig ⟨0, 1, (0, 0, 0)⟩ ∧
      edgeDistSq sitesHalf cellBig ⟨0, 1, (0, 0, 0)⟩ ≤ 2 * 2) :=
  ⟨by rw [evalRgpbcHalf]; exact List.mem_singleton.mpr rfl,
   C2_edge_distance 2 sitesHalf cellBig rgpbcDefaultPbc ⟨0, 1, (0, 0, 0)⟩
     (by rw [evalRgpbcHalf]; exact List.mem_singleton.mpr rfl)⟩

/-- C2 counterexample: the cell-list strategy emits a zero-distance
atom-probe edge when a probe coincides with an atom (probe at grid point
`(0,0,0)`, atom at the origin), so the `epsilon < d²` half of the invariant
fails for that strategy. -/
theorem C2_counterexample :
    edgesOfChoice cfgA1 choiceO (2, 2, 2) cellFour atomsOne = [⟨0, 1, (0, 0, 0)⟩]
    ∧ edgeDistSq (combinedSites choiceO (2, 2, 2) cellFour atomsOne) cellFour
        ⟨0, 1, (0, 0, 0)⟩ = 0
    ∧ ¬(1 / 10000 < (0 : ℚ)) := by
  refine ⟨evalAseO, ?_, by norm_num⟩
  rw [evalCombinedO]
  norm_num [edgeDistSq, posAt, siteAt, vadd, vsub, smulQ, cellShift, cellFour, normSq]

/-! ### Claim C9 -/

/-- C9 (edge species restriction): for every input and both neighbor-finding
strategies (any implementation name: an unsupported one yields no edges at
all), no produced edge joins two probe-sentinel endpoints; and when
`include_atomic_edges` is false every edge joins one real atom (nonzero
species) to one probe (species 0). -/
theorem C9_species (cfg : PGAConfig) (choice : List (ℕ × ℕ × ℕ)) (shape : ℕ × ℕ × ℕ)
    (cm : Cell) (atoms : List Site) (hA : ∀ s ∈ atoms, s.species ≠ 0)
    (e : Edge) (he : e ∈ edgesOfChoice cfg choice shape cm atoms) :
    ¬(speciesAt (combinedSites choice shape cm atoms) e.src = 0 ∧
        speciesAt (combinedSites choice shape cm atoms) e.tgt = 0) ∧
      (cfg.include_atomic_edges = false →
        speciesAt (combinedSites choice shape cm atoms) e.src ≠ 0 ∧
          speciesAt (combinedSites choice shape cm atoms) e.tgt = 0) := by
  by_cases hase : cfg.implementation = "ASE"
  · rw [edgesOfChoice, get_edges_from_choice, if_pos hase] at he
    dsimp only at he
    have hshape := ase_edge_shape _ _ _ _ he
    have hsrc : speciesAt (combinedSites choice shape cm atoms) e.src ≠ 0 := by
      have hlt : e.src < atoms.length := by
        have := hshape.1
        rwa [num_atoms_combined _ _ _ _ _ _ hA] at this
      rw [combinedSites, speciesAt_append_left _ _ _ hlt]
      exact speciesAt_ne_zero _ _ hlt hA
    exact ⟨fun hc => hsrc hc.1, fun hflag => ⟨hsrc, hshape.2 hflag⟩⟩
  · by_cases hrg : cfg.implementation = "RGPBC"
    · rw [edgesOfChoice, gefc_rgpbc _ _ _ _ _ hrg] at he
      dsimp only at he
      have hshape := rgpbc_edge_shape _ _ _ _ _ he
      have hsrc : speciesAt (combinedSites choice shape cm atoms) e.src ≠ 0 :=
        (atomIndices_spec _ _ hshape.1).2
      have htgt : speciesAt (combinedSites choice shape cm atoms) e.tgt = 0 :=
        (probeIndices_spec _ _ hshape.2).2
      exact ⟨fun hc => hsrc hc.1, fun _ => ⟨hsrc, htgt⟩⟩
    · rw [edgesOfChoice, get_edges_from_choice, if_neg hase, if_neg hrg] at he
      dsimp only at he
      exact absurd he (by simp)

/-! ### Claim C4 -/

/-- C4 (Assembler idempotence): if the host record already carries an attached
probe-graph record having both an edge set and offset data present, the call
returns the host record unchanged, with no recomputation; hence a second call
yields exactly the first call's output. -/
theorem C4_idempotence {α : Type} (cfg : PGAConfig) (obj : DataObject α)
    (ss np : Option ℕ) (m : Option String) (st : Option ℕ) (rand : ℕ → ℕ)
    (h : probeDataComplete obj = true) :
    probe_graph_adder_call cfg obj ss np m st rand = .ok obj := by
  simp [probe_graph_adder_call, h]

/-- Witness for C4 at a concrete complete record. -/
theorem C4_idempotence_witness :
    probeDataComplete objDone = true ∧
      probe_graph_adder_call cfgFoo objDone none none none none (fun _ => 0) = .ok objDone :=
  ⟨rfl, C4_idempotence cfgFoo objDone none none none none (fun _ => 0) rfl⟩

/-! ### Claim C10 -/

/-- C10 (Assembler frame property): the call either returns the host record
itself (idempotent case), raises, or returns the host record with only the
`probe_data` field newly attached — every pre-existing field is untouched. -/
theorem C10_frame {α : Type} (cfg : PGAConfig) (obj : DataObject α)
    (ss np : Option ℕ) (m : Option String) (st : Option ℕ) (rand : ℕ → ℕ) :
    probe_graph_adder_call cfg obj ss np m st rand = .ok obj ∨
    (∃ e, probe_graph_adder_call cfg obj ss np m st rand = .error e) ∨
    (∃ pd, probe_graph_adder_call cfg obj ss np m st rand =
      .ok { obj with probe_data := some pd }) := by
  rw [probe_graph_adder_call]
  by_cases h : probeDataComplete obj
  · simp [h]
  · simp only [h, Bool.false_eq_true, if_false]
    cases hc : pgaCompute cfg obj (ss.getD cfg.slice_start) (np.getD cfg.num_probes)
        (m.getD cfg.mode) (st.getD cfg.stride) rand with
    | error e => exact Or.inr (Or.inl ⟨e, by simp [hc, Except.map]⟩)
    | ok pd => exact Or.inr (Or.inr ⟨pd, by simp [hc, Except.map]⟩)

/-! ### Claim C8 -/

/-- C8 (amended): with a valid stride, any sampling mode outside
random/slice/all makes the call fail — no record is ever produced — but the
failure is the UnboundLocalError of the record-assembly lines, not an
explicitly raised NotImplementedError as for an unsupported implementation
name. -/
theorem C8_unknown_mode {α : Type} (cfg : PGAConfig) (obj : DataObject α) (rand : ℕ → ℕ)
    (hpd : probeDataComplete obj = false)
    (hstr : cfg.stride = 1 ∨ cfg.stride = 2 ∨ cfg.stride = 4)
    (h1 : cfg.mode ≠ "random") (h2 : cfg.mode ≠ "slice") (h3 : cfg.mode ≠ "all") :
    probe_graph_adder_call cfg obj none none none none rand = .error .unboundLocalError := by
  rw [probe_graph_adder_call]
  simp only [hpd, Bool.false_eq_true, if_false, Option.getD_none]
  rw [pgaCompute, if_neg (not_not_intro hstr), if_neg h1, if_neg h2, if_neg h3]
  rfl

/-- Witness for C8's amended theorem at a concrete record and mode. -/
theorem C8_unknown_mode_witness :
    probeDataComplete objW = false ∧
      probe_graph_adder_call cfgFoo objW none none none none (fun _ => 0) =
        .error .unboundLocalError :=
  ⟨rfl, C8_unknown_mode cfgFoo objW (fun _ => 0) rfl (Or.inl rfl)
    (by decide) (by decide) (by decide)⟩

/-- C8 counterexample: an unsupported mode is *not* reported the same way as
an unsupported implementation name — the former surfaces as an unbound-local
failure of the assembly code, the latter as an explicitly raised
NotImplementedError. -/
theorem C8_counterexample :
    probe_graph_adder_call cfgFoo objW none none none none (fun _ => 0) =
      .error .unboundLocalError
    ∧ get_edges_from_choice cfgBadImpl [] (1, 1, 1) cellFour [] =
      .error .notImplementedError
    ∧ PyError.unboundLocalError ≠ PyError.notImplementedError :=
  ⟨rfl, rfl, by decide⟩

/-! ### Claim C6 -/

/-- C6: querying `get_all_neighbors` with a cutoff different from the
construction-time cutoff is rejected by the RGPBC wrapper (and by the ASE
wrapper's per-atom `get_neighbors`), but the ASE wrapper's
`get_all_neighbors` silently ignores the mismatched cutoff and answers from
the construction-time search structure. -/
theorem C6_cutoff_mismatch (r c : ℚ) (sites : List Site) (cm : Cell)
    (pbcA pbcR : Bool × Bool × Bool) (flag : Bool) (i : ℕ) (h : c ≠ r) :
    ase_get_all_neighbors (ase_init r sites cm pbcA) c flag =
      ase_get_all_neighbors (ase_init r sites cm pbcA) r flag
    ∧ ase_get_neighbors (ase_init r sites cm pbcA) i c = .error .assertionError
    ∧ rgpbc_get_all_neighbors (rgpbc_init r sites cm pbcR) c flag =
      .error .assertionError := by
  refine ⟨rfl, ?_, ?_⟩
  · rw [ase_get_neighbors, if_neg]
    exact h
  · rw [rgpbc_get_all_neighbors, if_neg]
    exact h

/-- Witness for C6 at concrete cutoffs 5 (construction) and 3 (query). -/
theorem C6_cutoff_mismatch_witness :
    (3 : ℚ) ≠ 5 ∧
      (ase_get_all_neighbors (ase_init 5 sitesHalf cellBig (true, true, true)) 3 false =
        ase_get_all_neighbors (ase_init 5 sitesHalf cellBig (true, true, true)) 5 false
      ∧ ase_get_neighbors (ase_init 5 sitesHalf cellBig (true, true, true)) 0 3 =
        .error .assertionError
      ∧ rgpbc_get_all_neighbors (rgpbc_init 5 sitesHalf cellBig rgpbcDefaultPbc) 3 false =
        .error .assertionError) :=
  ⟨by norm_num,
    C6_cutoff_mismatch 5 3 sitesHalf cellBig (true, true, true) rgpbcDefaultPbc false 0
      (by norm_num)⟩

/-! ### Claim C7 -/

/-- Stride 1 leaves the density grid untouched. -/
theorem strideGrid_one (g : Grid) : strideGrid 1 g = g := by
  simp [strideGrid]

/-- With no complete probe graph attached, the call runs the computation on
the instance-default parameters (no call-time overrides given). -/
theorem pga_call_compute {α : Type} (cfg : PGAConfig) (obj : DataObject α) (rand : ℕ → ℕ)
    (hpd : probeDataComplete obj = false) :
    probe_graph_adder_call cfg obj none none none none rand =
      (pgaCompute cfg obj cfg.slice_start cfg.num_probes cfg.mode cfg.stride rand).map
        fun pd => { obj with probe_data := some pd } := by
  rw [probe_graph_adder_call]
  simp [hpd]

/-- Reduction of the computation body in `mode='slice'` with stride 1. -/
theorem pgaCompute_slice {α : Type} (cfg : PGAConfig) (obj : DataObject α)
    (ss N : ℕ) (rand : ℕ → ℕ) :
    pgaCompute cfg obj ss N "slice" 1 rand =
      (get_edges_from_choice cfg (sliceChoice obj.charge_density.shape ss N)
          obj.charge_density.shape obj.cell (sitesOf obj)).map fun r =>
        mkProbeData obj obj.charge_density (sliceChoice obj.charge_density.shape ss N)
          r.edges r.numbers r.probe_pos := by
  rw [pgaCompute, if_neg (by simp), if_neg (by decide), if_pos rfl, strideGrid_one]

/-- Row-major flattening inverts the embedded `np.unravel_index`. -/
theorem ravel_unravel (shape : ℕ × ℕ × ℕ) (f : ℕ) :
    ravel3 shape (unravel3 shape f) = f := by
  rcases shape with ⟨nx, ny, nz⟩
  simp only [ravel3, unravel3]
  calc (f / (ny * nz) * ny + f / nz % ny) * nz + f % nz
      = (f / nz / ny * ny + f / nz % ny) * nz + f % nz := by
        rw [Nat.mul_comm ny nz, Nat.div_div_eq_div_mul]
    _ = f / nz * nz + f % nz := by
        rw [Nat.mul_comm (f / nz / ny) ny, Nat.div_add_mod]
    _ = f := by rw [Nat.mul_comm, Nat.div_add_mod]

/-- An in-range flat index unravels to an in-range index triple. -/
theorem unravel_bounds (shape : ℕ × ℕ × ℕ) (f : ℕ) (h : f < gridTotal shape) :
    (unravel3 shape f).1 < shape.1 ∧ (unravel3 shape f).2.1 < shape.2.1 ∧
      (unravel3 shape f).2.2 < shape.2.2 := by
  rcases shape with ⟨nx, ny, nz⟩
  rw [gridTotal] at h
  have hy : 0 < ny := by
    rcases Nat.eq_zero_or_pos ny with h0 | h1
    · subst h0; simp at h
    · exact h1
  have hz : 0 < nz := by
    rcases Nat.eq_zero_or_pos nz with h0 | h1
    · subst h0; simp at h
    · exact h1
  refine ⟨?_, ?_, ?_⟩
  · rw [Nat.mul_assoc, Nat.mul_comm nx (ny * nz)] at h
    exact Nat.div_lt_of_lt_mul h
  · exact Nat.mod_lt _ hy
  · exact Nat.mod_lt _ hz

/-- C7 (slice-mode selection): with `num_probes = N` and `slice_start = S`,
`S + N` within the grid, the slice selection consists exactly of the flat
indices `[S, S+N)` in order (their row-major flattening recovers
`range' S N`), each unraveled triple is in range, and the Assembler's record
carries exactly the density values at those triples as targets and the
corresponding grid positions as probe positions. -/
theorem C7_slice_selection {α : Type} (cfg : PGAConfig) (obj : DataObject α) (rand : ℕ → ℕ)
    (hpd : probeDataComplete obj = false) (himpl : cfg.implementation = "RGPBC")
    (hmode : cfg.mode = "slice") (hstr : cfg.stride = 1)
    (hrange : cfg.slice_start + cfg.num_probes ≤ gridTotal obj.charge_density.shape) :
    (sliceChoice obj.charge_density.shape cfg.slice_start cfg.num_probes).map
        (ravel3 obj.charge_density.shape) = List.range' cfg.slice_start cfg.num_probes
    ∧ (∀ t ∈ sliceChoice obj.charge_density.shape cfg.slice_start cfg.num_probes,
        t.1 < obj.charge_density.shape.1 ∧ t.2.1 < obj.charge_density.shape.2.1 ∧
          t.2.2 < obj.charge_density.shape.2.2)
    ∧ ∃ pd, probe_graph_adder_call cfg obj none none none none rand =
        .ok { obj with probe_data := some pd }
      ∧ pd.target =
          (sliceChoice obj.charge_density.shape cfg.slice_start cfg.num_probes).map
            (fun t => obj.charge_density.values t.1 t.2.1 t.2.2)
      ∧ pd.pos = obj.pos ++
          probePositions (sliceChoice obj.charge_density.shape cfg.slice_start cfg.num_probes)
            obj.charge_density.shape obj.cell := by
  refine ⟨?_, ?_, ?_⟩
  · rw [sliceChoice, List.map_map]
    have hcongr : ∀ f ∈ List.range' cfg.slice_start cfg.num_probes,
        (ravel3 obj.charge_density.shape ∘ unravel3 obj.charge_density.shape) f = f :=
      fun f _ => ravel_unravel _ f
    rw [List.map_congr_left hcongr]
    exact List.map_id' _
  · intro t ht
    rw [sliceChoice, List.mem_map] at ht
    obtain ⟨f, hf, rfl⟩ := ht
    rw [List.mem_range'_1] at hf
    exact unravel_bounds _ f (by omega)
  · rw [pga_call_compute cfg obj rand hpd, hmode, hstr, pgaCompute_slice,
      gefc_rgpbc _ _ _ _ _ himpl]
    exact ⟨_, rfl, rfl, rfl⟩

/-- Witness for C7 on a 1x1x3 grid with one probe starting at flat index 0. -/
theorem C7_slice_selection_witness :
    (probeDataComplete objGrid = false ∧
      cfgSlice.slice_start + cfgSlice.num_probes ≤ gridTotal objGrid.charge_density.shape) ∧
    ((sliceChoice objGrid.charge_density.shape cfgSlice.slice_start cfgSlice.num_probes).map
        (ravel3 objGrid.charge_density.shape) =
          List.range' cfgSlice.slice_start cfgSlice.num_probes
      ∧ (∀ t ∈ sliceChoice objGrid.charge_density.shape cfgSlice.slice_start
            cfgSlice.num_probes,
          t.1 < objGrid.charge_density.shape.1 ∧ t.2.1 < objGrid.charge_density.shape.2.1 ∧
            t.2.2 < objGrid.charge_density.shape.2.2)
      ∧ ∃ pd, probe_graph_adder_call cfgSlice objGrid none none none none (fun _ => 0) =
          .ok { objGrid with probe_data := some pd }
        ∧ pd.target =
            (sliceChoice objGrid.charge_density.shape cfgSlice.slice_start
              cfgSlice.num_probes).map
              (fun t => objGrid.charge_density.values t.1 t.2.1 t.2.2)
        ∧ pd.pos = objGrid.pos ++
            probePositions (sliceChoice objGrid.charge_density.shape cfgSlice.slice_start
              cfgSlice.num_probes) objGrid.charge_density.shape objGrid.cell) :=
  ⟨⟨rfl, by decide⟩,
    C7_slice_selection cfgSlice objGrid (fun _ => 0) rfl rfl rfl rfl (by decide)⟩

/-! ### Claim C5 -/

/-- The `mode='all'` block count covers the whole grid: `total ≤ nB * N`. -/
theorem numBlocks_le_mul (total N : ℕ) (hN : 0 < N) :
    total ≤ numBlocksOf total N * N := by
  rw [numBlocksOf]
  have hdm := Nat.div_add_mod (total + N - 1) N
  have hml : (total + N - 1) % N < N := Nat.mod_lt _ hN
  rw [Nat.mul_comm ((total + N - 1) / N) N]
  generalize hA : N * ((total + N - 1) / N) = A at hdm ⊢
  omega

/-- All blocks but the last start strictly inside the grid. -/
theorem numBlocks_pred_mul_lt (total N : ℕ) (hN : 0 < N) (ht : 0 < total) :
    (numBlocksOf total N - 1) * N < total := by
  rw [numBlocksOf, Nat.sub_one_mul]
  have hdm := Nat.div_add_mod (total + N - 1) N
  have hml : (total + N - 1) % N < N := Nat.mod_lt _ hN
  rw [Nat.mul_comm ((total + N - 1) / N) N]
  generalize hA : N * ((total + N - 1) / N) = A at hdm ⊢
  omega

/-- An empty grid needs no blocks. -/
theorem numBlocks_zero (N : ℕ) (hN : 0 < N) : numBlocksOf 0 N = 0 := by
  rw [numBlocksOf]
  exact Nat.div_eq_of_lt (by omega)

/-- A nonempty grid needs at least one block. -/
theorem numBlocks_pos (total N : ℕ) (hN : 0 < N) (ht : 0 < total) :
    0 < numBlocksOf total N := by
  by_contra h
  have h0 : numBlocksOf total N = 0 := by omega
  have hle := numBlocks_le_mul total N hN
  rw [h0] at hle
  omega

/-- `range'` concatenation starting at zero. -/
theorem range'_zero_append (m n : ℕ) :
    List.range' 0 m ++ List.range' m n = List.range' 0 (m + n) := by
  have h := List.range'_append_1 0 m n
  simpa [Nat.add_comm] using h

/-- C5 coverage core: the concatenation of all block index lists is exactly
`range total` — every grid point once, in order, no duplicates, no
omissions. -/
theorem blockFlat_join (total N : ℕ) (hN : 0 < N) :
    ((List.range (numBlocksOf total N)).map (blockFlat total N)).flatten =
      List.range total := by
  rcases Nat.eq_zero_or_pos total with ht | ht
  · subst ht
    rw [numBlocks_zero N hN]
    rfl
  · have aux : ∀ k, k ≤ numBlocksOf total N →
        ((List.range k).map (blockFlat total N)).flatten =
          List.range' 0 (min (k * N) total) := by
      intro k
      induction k with
      | zero => intro h0; simp
      | succ k ih =>
        intro hk
        rw [List.range_succ, List.map_append, List.flatten_append, ih (by omega),
          List.map_cons, List.map_nil, List.flatten_cons, List.flatten_nil,
          List.append_nil]
        by_cases hlast : k = numBlocksOf total N - 1
        · have hnb : k + 1 = numBlocksOf total N := by
            have := numBlocks_pos total N hN ht
            omega
          have h1 : k * N < total := by
            have := numBlocks_pred_mul_lt total N hN ht
            rw [← hlast] at this
            exact this
          have h2 : total ≤ (k + 1) * N := by
            rw [hnb]
            exact numBlocks_le_mul total N hN
          rw [blockFlat, if_pos hlast, Nat.min_eq_left (Nat.le_of_lt h1),
            range'_zero_append, Nat.min_eq_right h2]
          congr 1
          generalize k * N = A at h1 ⊢
          omega
        · have hk1 : k + 1 ≤ numBlocksOf total N - 1 := by omega
          have h3 : (k + 1) * N ≤ (numBlocksOf total N - 1) * N :=
            Nat.mul_le_mul_right N hk1
          have h4 : (k + 1) * N < total :=
            Nat.lt_of_le_of_lt h3 (numBlocks_pred_mul_lt total N hN ht)
          have h1 : k * N < total :=
            Nat.lt_of_le_of_lt (Nat.mul_le_mul_right N (Nat.le_succ k)) h4
          rw [blockFlat, if_neg hlast, Nat.min_eq_left (Nat.le_of_lt h1),
            Nat.min_eq_left (Nat.le_of_lt h4), range'_zero_append]
          congr 1
          rw [Nat.succ_mul]
    rw [aux (numBlocksOf total N) (Nat.le_refl _),
      Nat.min_eq_right (numBlocks_le_mul total N hN), ← List.range_eq_range']

/-- Indexing into a flattened list of blocks whose first `i` entries all have
length `N`: global position `i*N + p` lands at local position `p` of block
`i`. -/
theorem flatten_get_block {β : Type} (f : ℕ → List β) (nB N i p : ℕ)
    (hi : i < nB) (hlen : ∀ j, j < i → (f j).length = N) (hp : p < (f i).length) :
    (((List.range nB).map f).flatten).get? (i * N + p) = (f i).get? p := by
  have hsplit : nB = i + (nB - i) := by omega
  rw [hsplit, List.range_add, List.map_append, List.flatten_append]
  have hpre : (((List.range i).map f).flatten).length = i * N := by
    rw [List.length_flatten, List.map_map]
    have hmc : (List.range i).map (List.length ∘ f) = (List.range i).map fun _ => N :=
      List.map_congr_left fun j hj => hlen j (List.mem_range.mp hj)
    rw [hmc, List.map_const', List.length_range]
    exact List.sum_const_nat i N
  rw [List.get?_append_right (by rw [hpre]; omega), hpre, Nat.add_sub_cancel_left,
    List.map_map]
  have hsucc : nB - i = nB - i - 1 + 1 := by omega
  rw [hsucc, List.range_succ_eq_map, List.map_cons, List.flatten_cons]
  exact List.get?_append hp

/-- The probe-position list of a block is as long as its index list. -/
theorem blockProbePos_length (shape : ℕ × ℕ × ℕ) (cm : Cell) (N j : ℕ) :
    (blockProbePos shape cm N j).length = (blockFlat (gridTotal shape) N j).length := by
  rw [blockProbePos, probePositions, List.length_map, blockChoice, List.length_map]

/-- Length of a combined structure. -/
theorem combinedSites_length (choice : List (ℕ × ℕ × ℕ)) (shape : ℕ × ℕ × ℕ)
    (cm : Cell) (atoms : List Site) :
    (combinedSites choice shape cm atoms).length = atoms.length + choice.length := by
  rw [combinedSites, List.length_append, List.length_map, probePositions, List.length_map]

/-- Every block except possibly the last has exactly `N` indices. -/
theorem blockFlat_length_ne (total N j : ℕ) (h : j ≠ numBlocksOf total N - 1) :
    (blockFlat total N j).length = N := by
  rw [blockFlat, if_neg h, List.length_range']

/-- The sequential block loop succeeds when every block does, returning the
per-block results in order. -/
theorem exceptMapList_ok (f : ℕ → Except PyError EdgesResult) (g : ℕ → EdgesResult)
    (l : List ℕ) (h : ∀ i ∈ l, f i = .ok (g i)) :
    exceptMapList f l = .ok (l.map g) := by
  induction l with
  | nil => rfl
  | cons i is ih =>
    rw [exceptMapList, h i (List.mem_cons_self i is),
      ih fun j hj => h j (List.mem_cons_of_mem i hj)]
    rfl

/-- With the RGPBC implementation every block computes successfully, yielding
the block edges with the probe-side shift applied. -/
theorem all_blocks_ok (cfg : PGAConfig) (shape : ℕ × ℕ × ℕ) (cm : Cell)
    (atoms : List Site) (N : ℕ) (himpl : cfg.implementation = "RGPBC") :
    all_blocks cfg shape cm atoms N =
      .ok ((List.range (numBlocksOf (gridTotal shape) N)).map fun i =>
        ⟨(blockEdges cfg shape cm atoms N i).map fun e => ⟨e.src, e.tgt + i * N, e.off⟩,
          (combinedSites (blockChoice shape N i) shape cm atoms).map Site.species,
          blockProbePos shape cm N i⟩) := by
  rw [all_blocks]
  apply exceptMapList_ok
  intro i _
  rw [gefc_rgpbc _ _ _ _ _ himpl]
  rfl

/-- Reduction of the computation body in `mode='all'` with stride 1. -/
theorem pgaCompute_all {α : Type} (cfg : PGAConfig) (obj : DataObject α)
    (ss N : ℕ) (rand : ℕ → ℕ) (hN : N ≠ 0) :
    pgaCompute cfg obj ss N "all" 1 rand =
      (all_blocks cfg obj.charge_density.shape obj.cell (sitesOf obj) N).map fun rs =>
        mkProbeData obj obj.charge_density
          ((List.range (gridTotal obj.charge_density.shape)).map
            (unravel3 obj.charge_density.shape))
          ((rs.map EdgesResult.edges).flatten)
          (obj.atomic_numbers ++
            List.replicate ((rs.map fun r => r.probe_pos.length).sum) 0)
          ((rs.map EdgesResult.probe_pos).flatten) := by
  rw [pgaCompute, if_neg (by simp), if_neg (by decide), if_neg (by decide), if_pos rfl,
    if_neg hN, strideGrid_one]

/-- C5 ('all'-mode block correctness): the blocks partition the flattened
grid indices exactly (no duplicates, no omissions, in order); the Assembler
concatenates the per-block edge lists in block order with each block's
probe-side indices shifted by `block_index * num_probes`; and each shifted
index refers, in the final concatenated atom+probe ordering, to the very
probe the block-local index referred to. -/
theorem C5_all_mode {α : Type} (cfg : PGAConfig) (obj : DataObject α) (rand : ℕ → ℕ)
    (hpd : probeDataComplete obj = false) (himpl : cfg.implementation = "RGPBC")
    (hmode : cfg.mode = "all") (hstr : cfg.stride = 1) (hN : 0 < cfg.num_probes)
    (hA : ∀ s ∈ sitesOf obj, s.species ≠ 0) :
    ((List.range (numBlocksOf (gridTotal obj.charge_density.shape) cfg.num_probes)).map
        (blockFlat (gridTotal obj.charge_density.shape) cfg.num_probes)).flatten =
      List.range (gridTotal obj.charge_density.shape)
    ∧ ∃ pd, probe_graph_adder_call cfg obj none none none none rand =
        .ok { obj with probe_data := some pd }
      ∧ pd.edge_index = some
          (((List.range (numBlocksOf (gridTotal obj.charge_density.shape)
              cfg.num_probes)).map fun i =>
            (blockEdges cfg obj.charge_density.shape obj.cell (sitesOf obj)
                cfg.num_probes i).map
              fun e => (e.src, e.tgt + i * cfg.num_probes)).flatten)
      ∧ pd.pos = obj.pos ++
          ((List.range (numBlocksOf (gridTotal obj.charge_density.shape)
              cfg.num_probes)).map
            (blockProbePos obj.charge_density.shape obj.cell cfg.num_probes)).flatten
      ∧ ∀ i ∈ List.range (numBlocksOf (gridTotal obj.charge_density.shape) cfg.num_probes),
          ∀ e ∈ blockEdges cfg obj.charge_density.shape obj.cell (sitesOf obj)
              cfg.num_probes i,
            ∃ p, e.tgt = (sitesOf obj).length + p
              ∧ p < (blockFlat (gridTotal obj.charge_density.shape) cfg.num_probes i).length
              ∧ (((List.range (numBlocksOf (gridTotal obj.charge_density.shape)
                    cfg.num_probes)).map
                  (blockProbePos obj.charge_density.shape obj.cell
                    cfg.num_probes)).flatten).get? (i * cfg.num_probes + p) =
                (blockProbePos obj.charge_density.shape obj.cell cfg.num_probes i).get? p := by
  refine ⟨blockFlat_join _ _ hN, ?_⟩
  have hcall := pga_call_compute cfg obj rand hpd
  rw [hmode, hstr,
    pgaCompute_all cfg obj cfg.slice_start cfg.num_probes rand (Nat.pos_iff_ne_zero.mp hN),
    all_blocks_ok cfg _ _ _ _ himpl] at hcall
  dsimp only [Except.map] at hcall
  refine ⟨_, hcall, ?_, ?_, ?_⟩
  · show some _ = some _
    congr 1
    rw [List.map_flatten]
    congr 1
    simp only [List.map_map]
    exact List.map_congr_left fun i _ => by
      simp only [Function.comp_apply, List.map_map]
      rfl
  · show obj.pos ++ _ = obj.pos ++ _
    congr 1
    congr 1
    simp only [List.map_map]
    exact List.map_congr_left fun i _ => rfl
  · intro i hi e he
    rw [blockEdges] at he
    have hshape := rgpbc_edge_shape _ _ _ _ _ he
    have hspec := probeIndices_spec _ _ hshape.2
    have hbclen : (blockChoice obj.charge_density.shape cfg.num_probes i).length =
        (blockFlat (gridTotal obj.charge_density.shape) cfg.num_probes i).length := by
      rw [blockChoice, List.length_map]
    have htlt := hspec.1
    rw [combinedSites_length, hbclen] at htlt
    have htge : (sitesOf obj).length ≤ e.tgt := by
      by_contra hlt
      push_neg at hlt
      have h0 := hspec.2
      rw [combinedSites, speciesAt_append_left _ _ _ hlt] at h0
      exact speciesAt_ne_zero _ _ hlt hA h0
    refine ⟨e.tgt - (sitesOf obj).length, by omega, by omega, ?_⟩
    apply flatten_get_block
    · exact List.mem_range.mp hi
    · intro j hj
      rw [blockProbePos_length]
      apply blockFlat_length_ne
      have hilt := List.mem_range.mp hi
      omega
    · rw [blockProbePos_length]
      omega

/-- Witness for C5 on a 1x1x3 grid with block size 2 (two blocks: one full,
one short). -/
theorem C5_all_mode_witness :
    (probeDataComplete objGrid = false ∧ 0 < cfgAll.num_probes ∧
      (∀ s ∈ sitesOf objGrid, s.species ≠ 0)) ∧
    (((List.range (numBlocksOf (gridTotal objGrid.charge_density.shape)
          cfgAll.num_probes)).map
        (blockFlat (gridTotal objGrid.charge_density.shape) cfgAll.num_probes)).flatten =
      List.range (gridTotal objGrid.charge_density.shape)
    ∧ ∃ pd, probe_graph_adder_call cfgAll objGrid none none none none (fun _ => 0) =
        .ok { objGrid with probe_data := some pd }
      ∧ pd.edge_index = some
          (((List.range (numBlocksOf (gridTotal objGrid.charge_density.shape)
              cfgAll.num_probes)).map fun i =>
            (blockEdges cfgAll objGrid.charge_density.shape objGrid.cell (sitesOf objGrid)
                cfgAll.num_probes i).map
              fun e => (e.src, e.tgt + i * cfgAll.num_probes)).flatten)
      ∧ pd.pos = objGrid.pos ++
          ((List.range (numBlocksOf (gridTotal objGrid.charge_density.shape)
              cfgAll.num_probes)).map
            (blockProbePos objGrid.charge_density.shape objGrid.cell
              cfgAll.num_probes)).flatten
      ∧ ∀ i ∈ List.range (numBlocksOf (gridTotal objGrid.charge_density.shape)
            cfgAll.num_probes),
          ∀ e ∈ blockEdges cfgAll objGrid.charge_density.shape objGrid.cell
              (sitesOf objGrid) cfgAll.num_probes i,
            ∃ p, e.tgt = (sitesOf objGrid).length + p
              ∧ p < (blockFlat (gridTotal objGrid.charge_density.shape)
                  cfgAll.num_probes i).length
              ∧ (((List.range (numBlocksOf (gridTotal objGrid.charge_density.shape)
                    cfgAll.num_probes)).map
                  (blockProbePos objGrid.charge_density.shape objGrid.cell
                    cfgAll.num_probes)).flatten).get? (i * cfgAll.num_probes + p) =
                (blockProbePos objGrid.charge_density.shape objGrid.cell
                  cfgAll.num_probes i).get? p) :=
  ⟨⟨rfl, by decide, by decide⟩,
    C5_all_mode cfgAll objGrid (fun _ => 0) rfl rfl rfl rfl (by decide) (by decide)⟩

/-- The combined structure for the probe at grid point `(1,0,0)` of a 5x1x1
grid in `cellBig`: the probe sits at real position `(2,0,0)`. -/
theorem evalCombinedX :
    combinedSites choiceX (5, 1, 1) cellBig atomsOne =
      [⟨1, ⟨0, 0, 0⟩⟩, ⟨0, ⟨2, 0, 0⟩⟩] := by
  norm_num [combinedSites, probePositions, choiceX, atomsOne, calculate_grid_pos,
    cellBig, vadd, smulQ]

set_option maxHeartbeats 1000000 in
/-- RGPBC on the 5x1x1 grid probe at distance 2 (= cutoff): exactly one edge. -/
theorem evalRgpbcX :
    edgesOfChoice cfgR2 choiceX (5, 1, 1) cellBig atomsOne = [⟨0, 1, (0, 0, 0)⟩] := by
  rw [edgesOfChoice, gefc_rgpbc cfgR2 _ _ _ _ rfl]
  dsimp only
  rw [show cfgR2.cutoff = 2 from rfl, evalCombinedX, rgpbc_init, cellsFixBigTTF]
  norm_num [atomIndices, probeIndices, speciesAt, siteAt, rangeFix2,
    List.filter_cons, List.filter_nil, unitCells, rangeSymFix0, rangeSymFix1,
    List.flatMap_cons, List.flatMap_nil, List.filterMap_cons, List.filterMap_nil,
    pairDistSq, posAt, vadd, vsub, smulQ, cellShift, negO, cellBig, normSq]

/-- Witness for C9 at a concrete produced edge. -/
theorem C9_species_witness :
    (∀ s ∈ atomsOne, s.species ≠ 0) ∧
    (⟨0, 1, (0, 0, 0)⟩ : Edge) ∈ edgesOfChoice cfgR2 choiceX (5, 1, 1) cellBig atomsOne ∧
    (¬(speciesAt (combinedSites choiceX (5, 1, 1) cellBig atomsOne)
          (⟨0, 1, (0, 0, 0)⟩ : Edge).src = 0 ∧
        speciesAt (combinedSites choiceX (5, 1, 1) cellBig atomsOne)
          (⟨0, 1, (0, 0, 0)⟩ : Edge).tgt = 0) ∧
      (cfgR2.include_atomic_edges = false →
        speciesAt (combinedSites choiceX (5, 1, 1) cellBig atomsOne)
          (⟨0, 1, (0, 0, 0)⟩ : Edge).src ≠ 0 ∧
        speciesAt (combinedSites choiceX (5, 1, 1) cellBig atomsOne)
          (⟨0, 1, (0, 0, 0)⟩ : Edge).tgt = 0)) :=
  ⟨by decide,
   by rw [evalRgpbcX]; exact List.mem_singleton.mpr rfl,
   C9_species cfgR2 choiceX (5, 1, 1) cellBig atomsOne (by decide) ⟨0, 1, (0, 0, 0)⟩
     (by rw [evalRgpbcX]; exact List.mem_singleton.mpr rfl)⟩

end CDM
